import Mathlib

/-!
The HTTPS gateway `main.go` of golang_postgresql_api.

A shallow embedding of the request path of `main.go` (the shared helper
`runScriptReturningJSONField`, the three routes that use it, `applyCors`,
`getConfigValue`, `loadConfig` and `main`) together with models of the Go
standard-library pieces those functions call: `encoding/json` (stream decoder,
string encoder), `unicode/utf8`, `net/http` (`ResponseWriter`, `http.Error`,
`http.MaxBytesReader`) and `path/filepath.Join`.

Go strings and byte slices are lists of byte values (`Str`); the operating
system (working directory, child processes, files) is an explicit `World`.
-/

namespace PgApi

/-! ## Byte strings and UTF-8 (`unicode/utf8`) -/

/-- Go `string` / `[]byte`: a sequence of byte values. -/
abbrev Str := List Nat

/-- The rune `utf8.RuneError` (U+FFFD). -/
def runeError : Nat := 0xFFFD

/-- Go `utf8.AppendRune`: the UTF-8 encoding of a rune; surrogates and values
above U+10FFFF are encoded as U+FFFD. -/
def appendRune (r : Nat) : Str :=
  if r < 0x80 then [r]
  else if r < 0x800 then [0xC0 + r / 64, 0x80 + r % 64]
  else if (0xD800 ≤ r ∧ r ≤ 0xDFFF) ∨ 0x10FFFF < r then [0xEF, 0xBF, 0xBD]
  else if r < 0x10000 then [0xE0 + r / 4096, 0x80 + r / 64 % 64, 0x80 + r % 64]
  else [0xF0 + r / 262144, 0x80 + r / 4096 % 64, 0x80 + r / 64 % 64, 0x80 + r % 64]

/-- A Go string constant, given as a Lean string literal: its UTF-8 bytes. -/
def lit (s : String) : Str := s.toList.flatMap fun c => appendRune c.toNat

/-- Continuation byte in the range `lo..hi`. -/
def inRange (lo hi b : Nat) : Bool := decide (lo ≤ b) && decide (b ≤ hi)

/-- Go `utf8.DecodeRune` on the bytes at the front of `p`: the rune and its
width in bytes; `(RuneError, 1)` for an invalid or truncated encoding and
`(RuneError, 0)` for empty input. The bit operations of the Go code
(`b0&mask<<6 | b1&maskx`) are written with `%` and `*`. -/
def decodeRune : Str → Nat × Nat
  | [] => (runeError, 0)
  | b0 :: rest =>
    if b0 < 0x80 then (b0, 1)
    else if b0 < 0xC2 then (runeError, 1)
    else if b0 < 0xE0 then
      match rest with
      | b1 :: _ =>
        if inRange 0x80 0xBF b1 then (b0 % 32 * 64 + b1 % 64, 2) else (runeError, 1)
      | [] => (runeError, 1)
    else if b0 < 0xF0 then
      match rest with
      | b1 :: b2 :: _ =>
        if inRange (if b0 = 0xE0 then 0xA0 else 0x80) (if b0 = 0xED then 0x9F else 0xBF) b1
            && inRange 0x80 0xBF b2 then
          (b0 % 16 * 4096 + b1 % 64 * 64 + b2 % 64, 3)
        else (runeError, 1)
      | _ => (runeError, 1)
    else if b0 < 0xF5 then
      match rest with
      | b1 :: b2 :: b3 :: _ =>
        if inRange (if b0 = 0xF0 then 0x90 else 0x80) (if b0 = 0xF4 then 0x8F else 0xBF) b1
            && inRange 0x80 0xBF b2 && inRange 0x80 0xBF b3 then
          (b0 % 8 * 262144 + b1 % 64 * 4096 + b2 % 64 * 64 + b3 % 64, 4)
        else (runeError, 1)
      | _ => (runeError, 1)
    else (runeError, 1)

/-- Go `utf8.Valid`, with the loop bounded by `fuel` iterations (each one
consumes at least one byte, so `fuel = length` always suffices). -/
def validLoop : Nat → Str → Bool
  | _, [] => true
  | 0, _ :: _ => false
  | fuel + 1, b :: rest =>
    if b < 0x80 then validLoop fuel rest
    else
      let d := decodeRune (b :: rest)
      if d.2 = 1 then false else validLoop fuel (rest.drop (d.2 - 1))

/-- Go `utf8.Valid`. -/
def validUTF8 (s : Str) : Bool := validLoop s.length s

/-- Go `strings.ToValidUTF8(s, "\uFFFD")`: every byte that
does not start a well-formed encoding is replaced by the encoding of U+FFFD.
This is what a JSON round trip through `encoding/json` does to a string. -/
def coerceLoop : Nat → Str → Str
  | _, [] => []
  | 0, _ :: _ => []
  | fuel + 1, b :: rest =>
    if b < 0x80 then b :: coerceLoop fuel rest
    else
      let d := decodeRune (b :: rest)
      if d.2 = 1 then [0xEF, 0xBF, 0xBD] ++ coerceLoop fuel rest
      else (b :: rest).take d.2 ++ coerceLoop fuel (rest.drop (d.2 - 1))

/-- See `coerceLoop`. -/
def coerceUTF8 (s : Str) : Str := coerceLoop s.length s

/-! ## `encoding/json`: the string encoder -/

/-- The table `hex = "0123456789abcdef"` of `encoding/json`. -/
def hexDigit (n : Nat) : Nat := if n < 10 then 48 + n else 87 + n

/-- Membership in `htmlSafeSet`: the ASCII bytes the encoder copies verbatim
when HTML escaping is on (the default of `json.NewEncoder`): everything from
space to DEL except `"`, `\`, `<`, `>` and `&`. -/
def htmlSafe (b : Nat) : Bool :=
  decide (0x20 ≤ b) && decide (b < 0x80) &&
    !(b = 0x22 || b = 0x5C || b = 0x3C || b = 0x3E || b = 0x26)

/-- The escape the encoder writes for an ASCII byte outside `htmlSafeSet`. -/
def escapeByte (b : Nat) : Str :=
  if b = 0x5C ∨ b = 0x22 then [0x5C, b]
  else if b = 0x08 then [0x5C, 0x62]
  else if b = 0x0C then [0x5C, 0x66]
  else if b = 0x0A then [0x5C, 0x6E]
  else if b = 0x0D then [0x5C, 0x72]
  else if b = 0x09 then [0x5C, 0x74]
  else [0x5C, 0x75, 0x30, 0x30, hexDigit (b / 16), hexDigit (b % 16)]

/-- The loop of `appendString(dst, src, escapeHTML = true)` in
`encoding/json/encode.go`: what is written between the two quotes. `fuel`
bounds the iterations; each one consumes at least one byte of `src`, so
`fuel = length` always suffices. (Backspace and form feed are written `\b` and
`\f` as from Go 1.22; earlier versions wrote `\u0008` and `\u000c`, which
denote the same bytes.) -/
def appendStringLoop : Nat → Str → Str
  | _, [] => []
  | 0, _ :: _ => []
  | fuel + 1, b :: rest =>
    if b < 0x80 then
      (if htmlSafe b then [b] else escapeByte b) ++ appendStringLoop fuel rest
    else
      let d := decodeRune (b :: rest)
      if d.1 = runeError ∧ d.2 = 1 then
        [0x5C, 0x75, 0x66, 0x66, 0x66, 0x64] ++ appendStringLoop fuel rest
      else if d.1 = 0x2028 ∨ d.1 = 0x2029 then
        [0x5C, 0x75, 0x32, 0x30, 0x32, hexDigit (d.1 % 16)]
          ++ appendStringLoop fuel (rest.drop (d.2 - 1))
      else (b :: rest).take d.2 ++ appendStringLoop fuel (rest.drop (d.2 - 1))

/-- Go `appendString(dst, src, true)`: a JSON string literal for `src`. -/
def appendString (src : Str) : Str :=
  [0x22] ++ appendStringLoop src.length src ++ [0x22]

/-- Go `json.NewEncoder(w).Encode(map[string]string{field: value})`: the bytes
written for a one-entry map, with the newline `Encode` appends. -/
def encodeSingletonMap (field value : Str) : Str :=
  [0x7B] ++ appendString field ++ [0x3A] ++ appendString value ++ [0x7D, 0x0A]

/-! ## `encoding/json`: unquoting a string literal -/

/-- Value of a hexadecimal digit, as `getu4` reads it. -/
def hexVal (c : Nat) : Option Nat :=
  if 0x30 ≤ c ∧ c ≤ 0x39 then some (c - 0x30)
  else if 0x61 ≤ c ∧ c ≤ 0x66 then some (c - 0x61 + 10)
  else if 0x41 ≤ c ∧ c ≤ 0x46 then some (c - 0x41 + 10)
  else none

/-- Go `getu4`: the code unit of a `\uXXXX` escape at the front of `s`. -/
def getu4 : Str → Option Nat
  | 0x5C :: 0x75 :: a :: b :: c :: d :: _ =>
    match hexVal a, hexVal b, hexVal c, hexVal d with
    | some x, some y, some z, some w => some (x * 4096 + y * 256 + z * 16 + w)
    | _, _, _, _ => none
  | _ => none

/-- Go `utf16.IsSurrogate`. -/
def isSurrogate (r : Nat) : Bool := decide (0xD800 ≤ r) && decide (r < 0xE000)

/-- Go `utf16.DecodeRune`: the rune of a surrogate pair, U+FFFD if the pair is
not a high surrogate followed by a low one. -/
def utf16DecodeRune (r1 r2 : Nat) : Nat :=
  if 0xD800 ≤ r1 ∧ r1 < 0xDC00 ∧ 0xDC00 ≤ r2 ∧ r2 < 0xE000 then
    (r1 - 0xD800) * 1024 + (r2 - 0xDC00) + 0x10000
  else runeError

/-- The decoding loop of Go `unquoteBytes` on the text between the quotes
(the copy-free fast path of the Go code returns the same bytes). `none` is
the `ok = false` result. -/
def unquoteLoop : Nat → Str → Option Str
  | _, [] => some []
  | 0, _ :: _ => none
  | fuel + 1, c :: rest =>
    if c = 0x5C then
      match rest with
      | [] => none
      | e :: rest2 =>
        if e = 0x22 ∨ e = 0x5C ∨ e = 0x2F ∨ e = 0x27 then
          (unquoteLoop fuel rest2).map (e :: ·)
        else if e = 0x62 then (unquoteLoop fuel rest2).map (0x08 :: ·)
        else if e = 0x66 then (unquoteLoop fuel rest2).map (0x0C :: ·)
        else if e = 0x6E then (unquoteLoop fuel rest2).map (0x0A :: ·)
        else if e = 0x72 then (unquoteLoop fuel rest2).map (0x0D :: ·)
        else if e = 0x74 then (unquoteLoop fuel rest2).map (0x09 :: ·)
        else if e = 0x75 then
          match getu4 (c :: rest) with
          | none => none
          | some rr =>
            let after := rest.drop 5
            if isSurrogate rr then
              match getu4 after with
              | some rr1 =>
                if utf16DecodeRune rr rr1 ≠ runeError then
                  (unquoteLoop fuel (after.drop 6)).map
                    (appendRune (utf16DecodeRune rr rr1) ++ ·)
                else (unquoteLoop fuel after).map (appendRune runeError ++ ·)
              | none => (unquoteLoop fuel after).map (appendRune runeError ++ ·)
            else (unquoteLoop fuel after).map (appendRune rr ++ ·)
        else none
    else if c = 0x22 ∨ c < 0x20 then none
    else if c < 0x80 then (unquoteLoop fuel rest).map (c :: ·)
    else
      let d := decodeRune (c :: rest)
      (unquoteLoop fuel (rest.drop (d.2 - 1))).map (appendRune d.1 ++ ·)

/-- Go `unquoteBytes`: the string a JSON string literal (quotes included)
denotes; `none` when `s` is not a quoted literal. -/
def unquoteBytes (s : Str) : Option Str :=
  match s with
  | 0x22 :: rest =>
    match rest.reverse with
    | 0x22 :: revInner => unquoteLoop revInner.length revInner.reverse
    | _ => none
  | _ => none

/-! ## `encoding/json`: the scanner (`scanner.go`) -/

/-- The step functions of the scanner (`stateBeginValue`, `stateInString`, ...). -/
inductive Step
  | beginValueOrEmpty | beginValue | beginStringOrEmpty | beginString
  | endValue | endTop
  | inString | inStringEsc | inStringEscU | inStringEscU1 | inStringEscU12 | inStringEscU123
  | neg | s1 | s0 | dot | dot0 | e | eSign | e0
  | t | tr | tru | f | fa | fal | fals | n | nu | nul
  | error
  deriving DecidableEq, Repr

/-- Entries of the scanner's `parseState` stack. -/
inductive ParseState
  | objectKey | objectValue | arrayValue
  deriving DecidableEq, Repr

/-- The opcodes a step function returns (`scanContinue`, `scanBeginLiteral`, ...). -/
inductive Op
  | continue | beginLiteral | beginObject | objectKey | objectValue | endObject
  | beginArray | arrayValue | endArray | skipSpace | scanEnd | scanError
  deriving DecidableEq, Repr

/-- The scanner: current step function and the stack of open objects and
arrays, innermost first. (`endTop` and `err` of the Go struct are determined by
`step` being `endTop` or `error`.) -/
structure Scanner where
  step : Step
  parseState : List ParseState
  deriving DecidableEq, Repr

/-- Go `maxNestingDepth`. -/
def maxNestingDepth : Nat := 10000

/-- Go `isSpace`. -/
def isSpace (c : Nat) : Bool := c = 0x20 || c = 0x09 || c = 0x0D || c = 0x0A

/-- Go `scanner.error`: enter the error state. -/
def Scanner.fail (s : Scanner) : Scanner × Op := ({ s with step := .error }, .scanError)

/-- Go `scanner.pushParseState`. -/
def Scanner.pushParseState (s : Scanner) (next : Step) (p : ParseState) (ok : Op) :
    Scanner × Op :=
  if s.parseState.length + 1 ≤ maxNestingDepth then
    (⟨next, p :: s.parseState⟩, ok)
  else (⟨.error, p :: s.parseState⟩, .scanError)

/-- Go `stateEndTop`: a non-space byte after the top-level value is recorded
as an error for the next call, the opcode is `scanEnd` either way. -/
def stateEndTop (s : Scanner) (c : Nat) : Scanner × Op :=
  if isSpace c then (s, .scanEnd) else ({ s with step := .error }, .scanEnd)

/-- Go `stateEndValue` (with `popParseState` inlined). -/
def stateEndValue (s : Scanner) (c : Nat) : Scanner × Op :=
  match s.parseState with
  | [] => stateEndTop { s with step := .endTop } c
  | ps :: below =>
    if isSpace c then ({ s with step := .endValue }, .skipSpace)
    else
      let pop : Scanner := ⟨if below = [] then .endTop else .endValue, below⟩
      match ps with
      | .objectKey =>
        if c = 0x3A then (⟨.beginValue, .objectValue :: below⟩, .objectKey) else s.fail
      | .objectValue =>
        if c = 0x2C then (⟨.beginString, .objectKey :: below⟩, .objectValue)
        else if c = 0x7D then (pop, .endObject)
        else s.fail
      | .arrayValue =>
        if c = 0x2C then ({ s with step := .beginValue }, .arrayValue)
        else if c = 0x5D then (pop, .endArray)
        else s.fail

/-- Go `stateBeginValue`. -/
def stateBeginValue (s : Scanner) (c : Nat) : Scanner × Op :=
  if isSpace c then (s, .skipSpace)
  else if c = 0x7B then s.pushParseState .beginStringOrEmpty .objectKey .beginObject
  else if c = 0x5B then s.pushParseState .beginValueOrEmpty .arrayValue .beginArray
  else if c = 0x22 then ({ s with step := .inString }, .beginLiteral)
  else if c = 0x2D then ({ s with step := .neg }, .beginLiteral)
  else if c = 0x30 then ({ s with step := .s0 }, .beginLiteral)
  else if c = 0x74 then ({ s with step := .t }, .beginLiteral)
  else if c = 0x66 then ({ s with step := .f }, .beginLiteral)
  else if c = 0x6E then ({ s with step := .n }, .beginLiteral)
  else if 0x31 ≤ c ∧ c ≤ 0x39 then ({ s with step := .s1 }, .beginLiteral)
  else s.fail

/-- Go `stateBeginString`. -/
def stateBeginString (s : Scanner) (c : Nat) : Scanner × Op :=
  if isSpace c then (s, .skipSpace)
  else if c = 0x22 then ({ s with step := .inString }, .beginLiteral)
  else s.fail

/-- Digit test of the number states. -/
def isDigit (c : Nat) : Bool := decide (0x30 ≤ c) && decide (c ≤ 0x39)

/-- Hexadecimal digit test of `stateInStringEscU` and its successors. -/
def isHex (c : Nat) : Bool :=
  isDigit c || (decide (0x61 ≤ c) && decide (c ≤ 0x66)) || (decide (0x41 ≤ c) && decide (c ≤ 0x46))

/-- One byte of a keyword (`true`, `false`, `null`): move to `next` if the byte
is the expected one. -/
def Scanner.expect (s : Scanner) (c want : Nat) (next : Step) : Scanner × Op :=
  if c = want then ({ s with step := next }, .continue) else s.fail

/-- Go `state0`: after the integer part of a number. -/
def state0 (s : Scanner) (c : Nat) : Scanner × Op :=
  if c = 0x2E then ({ s with step := .dot }, .continue)
  else if c = 0x65 ∨ c = 0x45 then ({ s with step := .e }, .continue)
  else stateEndValue s c

/-- Go `stateESign`. -/
def stateESign (s : Scanner) (c : Nat) : Scanner × Op :=
  if isDigit c then ({ s with step := .e0 }, .continue) else s.fail

/-- Go `s.step(s, c)`: feed one byte to the scanner. -/
def Scanner.next (s : Scanner) (c : Nat) : Scanner × Op :=
  match s.step with
  | .beginValueOrEmpty =>
    if isSpace c then (s, .skipSpace)
    else if c = 0x5D then stateEndValue s c
    else stateBeginValue s c
  | .beginValue => stateBeginValue s c
  | .beginStringOrEmpty =>
    if isSpace c then (s, .skipSpace)
    else if c = 0x7D then
      stateEndValue { s with parseState := .objectValue :: s.parseState.tail } c
    else stateBeginString s c
  | .beginString => stateBeginString s c
  | .endValue => stateEndValue s c
  | .endTop => stateEndTop s c
  | .inString =>
    if c = 0x22 then ({ s with step := .endValue }, .continue)
    else if c = 0x5C then ({ s with step := .inStringEsc }, .continue)
    else if c < 0x20 then s.fail
    else (s, .continue)
  | .inStringEsc =>
    if c = 0x62 ∨ c = 0x66 ∨ c = 0x6E ∨ c = 0x72 ∨ c = 0x74 ∨ c = 0x5C ∨ c = 0x2F ∨ c = 0x22 then
      ({ s with step := .inString }, .continue)
    else if c = 0x75 then ({ s with step := .inStringEscU }, .continue)
    else s.fail
  | .inStringEscU => if isHex c then ({ s with step := .inStringEscU1 }, .continue) else s.fail
  | .inStringEscU1 => if isHex c then ({ s with step := .inStringEscU12 }, .continue) else s.fail
  | .inStringEscU12 => if isHex c then ({ s with step := .inStringEscU123 }, .continue) else s.fail
  | .inStringEscU123 => if isHex c then ({ s with step := .inString }, .continue) else s.fail
  | .neg =>
    if c = 0x30 then ({ s with step := .s0 }, .continue)
    else if 0x31 ≤ c ∧ c ≤ 0x39 then ({ s with step := .s1 }, .continue)
    else s.fail
  | .s1 => if isDigit c then ({ s with step := .s1 }, .continue) else state0 s c
  | .s0 => state0 s c
  | .dot => if isDigit c then ({ s with step := .dot0 }, .continue) else s.fail
  | .dot0 =>
    if isDigit c then (s, .continue)
    else if c = 0x65 ∨ c = 0x45 then ({ s with step := .e }, .continue)
    else stateEndValue s c
  | .e =>
    if c = 0x2B ∨ c = 0x2D then ({ s with step := .eSign }, .continue) else stateESign s c
  | .eSign => stateESign s c
  | .e0 => if isDigit c then (s, .continue) else stateEndValue s c
  | .t => s.expect c 0x72 .tr
  | .tr => s.expect c 0x75 .tru
  | .tru => s.expect c 0x65 .endValue
  | .f => s.expect c 0x61 .fa
  | .fa => s.expect c 0x6C .fal
  | .fal => s.expect c 0x73 .fals
  | .fals => s.expect c 0x65 .endValue
  | .n => s.expect c 0x75 .nu
  | .nu => s.expect c 0x6C .nul
  | .nul => s.expect c 0x6C .endValue
  | .error => (s, .scanError)

/-- Go `scanner.reset`. -/
def Scanner.reset : Scanner := ⟨.beginValue, []⟩

/-! ## `encoding/json`: reading one value from a stream and unmarshalling it -/

deriving instance DecidableEq for Except

/-- The errors `Decoder.Decode` can return to the handler. -/
inductive DecodeError
  | badSyntax       -- `*json.SyntaxError`
  | eof             -- `io.EOF`: nothing but white space before the end
  | unexpectedEOF   -- `io.ErrUnexpectedEOF`
  | maxBytes        -- `*http.MaxBytesError`: the reader's limit was reached
  | unmarshalType   -- `*json.UnmarshalTypeError`
  | phase           -- the decoder's internal panic (`phasePanicMsg`)
  deriving DecidableEq, Repr

/-- Kind of the top-level JSON value. -/
inductive TopKind
  | object | array | string | number | bool | null
  deriving DecidableEq, Repr

/-- A member value of the top-level object as the unmarshaller treats it: a
string literal (raw text, quotes included), `null`, or anything else. -/
inductive MemberValue
  | str (raw : Str)
  | null
  | other
  deriving DecidableEq, Repr

/-- Which literal of the top-level object is being read. -/
inductive Reading
  | idle | key | stringValue
  deriving DecidableEq, Repr

/-- What `decodeState` extracts while it walks a value with the scanner: the
kind of the top-level value and, for an object, its members in order (key as
raw literal text). -/
structure Collector where
  top : Option TopKind
  members : List (Str × MemberValue)
  key : Str
  val : MemberValue
  reading : Reading
  deriving DecidableEq, Repr

/-- Collector before any byte. -/
def Collector.init : Collector := ⟨none, [], [], .other, .idle⟩

/-- Kind of a literal from its first byte (`literalStore` switches on it). -/
def literalKind (c : Nat) : TopKind :=
  if c = 0x22 then .string else if c = 0x6E then .null
  else if c = 0x74 ∨ c = 0x66 then .bool else .number

/-- Update of the collector for byte `c`, read when the scanner stack was
`before` and answered with opcode `op`. -/
def Collector.collect (k : Collector) (before : List ParseState) (c : Nat) (op : Op) :
    Collector :=
  match op with
  | .continue =>
    match k.reading with
    | .idle => k
    | .key => { k with key := k.key ++ [c] }
    | .stringValue =>
      match k.val with
      | .str raw => { k with val := .str (raw ++ [c]) }
      | _ => k
  | .beginLiteral =>
    match before with
    | [] => { k with top := some (literalKind c), reading := .idle }
    | [.objectKey] => { k with key := [c], reading := .key }
    | [.objectValue] =>
      if c = 0x22 then { k with val := .str [c], reading := .stringValue }
      else if c = 0x6E then { k with val := .null, reading := .idle }
      else { k with val := .other, reading := .idle }
    | _ => { k with reading := .idle }
  | .beginObject =>
    match before with
    | [] => { k with top := some .object, reading := .idle }
    | [.objectValue] => { k with val := .other, reading := .idle }
    | _ => { k with reading := .idle }
  | .beginArray =>
    match before with
    | [] => { k with top := some .array, reading := .idle }
    | [.objectValue] => { k with val := .other, reading := .idle }
    | _ => { k with reading := .idle }
  | .objectValue | .endObject =>
    match before with
    | [.objectValue] => { k with members := k.members ++ [(k.key, k.val)], reading := .idle }
    | _ => { k with reading := .idle }
  | _ => { k with reading := .idle }

/-- Go `Decoder.readValue` over a body wrapped in `http.MaxBytesReader(w, body, n)`,
fused with the walk `decodeState` makes over the bytes it returns. The reader
hands out the first `n` bytes of the body; asking for more fails with
`MaxBytesError` when the body is longer and reports `io.EOF` when it is not.
The scan stops at the first byte that completes the top-level value, so bytes
after it are never looked at. -/
def readValue (s : Scanner) (k : Collector) : Nat → Str → Except DecodeError Collector
  | _, [] =>
    if (s.next 0x20).2 = .scanEnd then .ok k
    else if k.top.isSome then .error .unexpectedEOF
    else .error .eof
  | 0, _ :: _ => .error .maxBytes
  | n + 1, c :: rest =>
    let r := s.next c
    let k1 := k.collect s.parseState c r.2
    match r.2 with
    | .scanEnd => .ok k
    | .scanError => .error .badSyntax
    | .endObject | .endArray =>
      if (stateEndValue r.1 0x20).2 = .scanEnd then .ok k1 else readValue r.1 k1 n rest
    | _ => readValue r.1 k1 n rest

/-- The request envelope of `main.go`. -/
structure RequestBody where
  Database : Str
  Base64Value : Str
  deriving DecidableEq, Repr

/-- ASCII upper-casing of one byte. -/
def upperByte (c : Nat) : Nat := if 0x61 ≤ c ∧ c ≤ 0x7A then c - 0x20 else c

/-- Whether `foldName(key)` equals `foldName(name)` for an ASCII field name:
ASCII letters match without regard to case, and the two non-ASCII runes whose
simple case folding is an ASCII letter match it (U+017F for `s`, U+212A for
`k`); this is the field lookup of `decodeState.object` (exact name first, then
folded name). -/
def foldEq : Str → Str → Bool
  | [], [] => true
  | 0xC5 :: 0xBF :: key, n :: name => upperByte n = 0x53 && foldEq key name
  | 0xE2 :: 0x84 :: 0xAA :: key, n :: name => upperByte n = 0x4B && foldEq key name
  | c :: key, n :: name => decide (c < 0x80) && upperByte c = upperByte n && foldEq key name
  | _, _ => false

/-- Store one member into the envelope (`decodeState.object` followed by
`literalStore` on a string field): a string sets the field, `null` leaves it,
any other value is an `UnmarshalTypeError`; unknown keys are skipped. The
second component is `decodeState.savedError` (the first error is kept). -/
def storeMember (acc : RequestBody × Option DecodeError) (m : Str × MemberValue) :
    RequestBody × Option DecodeError :=
  let save (e : DecodeError) : Option DecodeError := acc.2.orElse fun _ => some e
  match unquoteBytes m.1 with
  | none => (acc.1, save .phase)
  | some key =>
    let isDb := foldEq key (lit "database")
    let isB64 := foldEq key (lit "base64value")
    if isDb || isB64 then
      match m.2 with
      | .str raw =>
        match unquoteBytes raw with
        | none => (acc.1, save .phase)
        | some v =>
          if isDb then ({ acc.1 with Database := v }, acc.2)
          else ({ acc.1 with Base64Value := v }, acc.2)
      | .null => acc
      | .other => (acc.1, save .unmarshalType)
    else acc

/-- Go `decodeState.unmarshal` into a `*RequestBody`. -/
def unmarshalRequestBody (k : Collector) : Except DecodeError RequestBody :=
  match k.top with
  | some .null => .ok ⟨[], []⟩
  | some .object =>
    match k.members.foldl storeMember (⟨[], []⟩, none) with
    | (rb, none) => .ok rb
    | (_, some e) => .error e
  | some _ => .error .unmarshalType
  | none => .error .phase

/-- Go `json.NewDecoder(http.MaxBytesReader(w, body, limit)).Decode(&req)`. -/
def decodeRequestBody (limit : Nat) (body : Str) : Except DecodeError RequestBody :=
  match readValue Scanner.reset Collector.init limit body with
  | .ok k => unmarshalRequestBody k
  | .error e => .error e

/-- A decoded member value: the string a literal denotes, `null`, or another
kind of value. -/
inductive JsonMember
  | str (value : Str)
  | null
  | other
  deriving DecidableEq, Repr

/-- Unquote the key and the value of a member. -/
def decodeMember (m : Str × MemberValue) : Option (Str × JsonMember) :=
  match unquoteBytes m.1, m.2 with
  | some key, .str raw => (unquoteBytes raw).map fun v => (key, .str v)
  | some key, .null => some (key, .null)
  | some key, .other => some (key, .other)
  | none, _ => none

/-- Unquote every member. -/
def decodeMembers : List (Str × MemberValue) → Option (List (Str × JsonMember))
  | [] => some []
  | m :: ms =>
    match decodeMember m, decodeMembers ms with
    | some a, some rest => some (a :: rest)
    | _, _ => none

/-- Reading a whole document as a JSON object with the same decoder (no size
limit): its members in order, `none` if the text does not start with a JSON
object. This is how a client reads the response body. -/
def decodeObject (text : Str) : Option (List (Str × JsonMember)) :=
  match readValue Scanner.reset Collector.init text.length text with
  | .ok k => if k.top = some .object then decodeMembers k.members else none
  | .error _ => none

/-! ## `path/filepath` (Unix) -/

/-- Split a path at every `/`. -/
def splitSlash : Str → List Str
  | [] => [[]]
  | c :: rest =>
    if c = 0x2F then [] :: splitSlash rest
    else
      match splitSlash rest with
      | [] => [[c]]
      | h :: t => (c :: h) :: t

/-- One path element of `filepath.Clean`, on the stack of elements kept so far
(last one first): empty and `.` elements are dropped, `..` removes the element
before it, is dropped at the root and is kept at the start of a relative path. -/
def cleanStep (rooted : Bool) (stack : List Str) (elem : Str) : List Str :=
  if elem = [] ∨ elem = [0x2E] then stack
  else if elem = [0x2E, 0x2E] then
    match stack with
    | top :: below => if top = [0x2E, 0x2E] then elem :: stack else below
    | [] => if rooted then [] else [elem]
  else elem :: stack

/-- Go `filepath.Clean` on Unix. -/
def filepathClean (path : Str) : Str :=
  if path = [] then [0x2E]
  else
    let rooted := path.head? = some 0x2F
    let kept := ((splitSlash path).foldl (cleanStep rooted) []).reverse
    if rooted then 0x2F :: [0x2F].intercalate kept
    else if kept = [] then [0x2E]
    else [0x2F].intercalate kept

/-- Go `filepath.Join(a, b)`: the non-empty elements joined by `/`, cleaned. -/
def filepathJoin (a b : Str) : Str :=
  if a ≠ [] then filepathClean (a ++ [0x2F] ++ b)
  else if b ≠ [] then filepathClean b
  else []

/-! ## `net/http`: requests and the response writer -/

/-- What a handler reads of an `*http.Request`: the method and the body. -/
structure Request where
  method : Str
  body : Str
  deriving DecidableEq, Repr

/-- The response as the client receives it: headers, status line (`none`
until the header has been written) and body. -/
structure ResponseWriter where
  header : List (Str × Str)
  status : Option Nat
  body : Str
  deriving DecidableEq, Repr

/-- Replace or add a header field. -/
def setField (k v : Str) : List (Str × Str) → List (Str × Str)
  | [] => [(k, v)]
  | (k1, v1) :: rest => if k1 = k then (k, v) :: rest else (k1, v1) :: setField k v rest

/-- Go `w.Header().Set(k, v)`: changes the response only before the header is
written. -/
def ResponseWriter.Set (w : ResponseWriter) (k v : Str) : ResponseWriter :=
  if w.status.isSome then w else { w with header := setField k v w.header }

/-- Go `w.Header().Get(k)` on the response. -/
def ResponseWriter.Get (w : ResponseWriter) (k : Str) : Option Str := w.header.lookup k

/-- Go `w.WriteHeader(code)`: the first call fixes the status. -/
def ResponseWriter.WriteHeader (w : ResponseWriter) (code : Nat) : ResponseWriter :=
  if w.status.isSome then w else { w with status := some code }

/-- Go `bodyAllowedForStatus`. -/
def bodyAllowedForStatus (code : Nat) : Bool :=
  !((decide (100 ≤ code) && decide (code ≤ 199)) || code = 204 || code = 304)

/-- Go `w.Write(data)`: writes the header with status 200 if it was not
written yet, then the data (dropped for a status that allows no body). -/
def ResponseWriter.Write (w : ResponseWriter) (data : Str) : ResponseWriter :=
  let w1 := w.WriteHeader 200
  if bodyAllowedForStatus (w1.status.getD 200) then { w1 with body := w1.body ++ data } else w1

/-- Go `http.Error(w, msg, code)`: sets the two header fields, writes the
status and the message followed by a newline. (From Go 1.23 on it also deletes
`Content-Length` and some caching fields, which no handler here sets.) -/
def httpError (w : ResponseWriter) (msg : Str) (code : Nat) : ResponseWriter :=
  (((w.Set (lit "Content-Type") (lit "text/plain; charset=utf-8")).Set
    (lit "X-Content-Type-Options") (lit "nosniff")).WriteHeader code).Write (msg ++ [0x0A])

/-- The writer the server hands to the outermost handler. -/
def ResponseWriter.fresh : ResponseWriter := ⟨[], none, []⟩

/-- Go `http.MethodPost`. -/
def MethodPost : Str := lit "POST"

/-- Go `http.MethodOptions`. -/
def MethodOptions : Str := lit "OPTIONS"

/-! ## The operating system as seen by a handler -/

/-- Observable actions of a handler besides the response. -/
inductive Event
  /-- `os.Getwd()` was called. -/
  | getwd
  /-- `cmd.CombinedOutput()` was called on the command
  `exec.CommandContext(ctx, path, args...)`, with `ctx` the request context
  bounded by `timeout` seconds. -/
  | combinedOutput (path : Str) (args : List Str) (timeout : Nat)
  /-- A child process was started for that command (`fork`/`exec` succeeded). -/
  | exec (path : Str) (args : List Str)
  /-- `log.Printf` wrote this message (time stamp not modelled). -/
  | log (line : Str)
  deriving DecidableEq, Repr

/-- What `cmd.CombinedOutput()` comes back with: either the command could not
be started (no process exists; the error of `cmd.Start`, for instance a missing
or non-executable file or a context that is already done), or a process ran
and ended with the captured output and, unless it exited with status 0, an
error. -/
inductive RunResult
  | notStarted (err : Str)
  | finished (output : Str) (err : Option Str)
  deriving DecidableEq, Repr

/-- The `[]byte` returned by `CombinedOutput`: empty when nothing was started. -/
def RunResult.output : RunResult → Str
  | .notStarted _ => []
  | .finished output _ => output

/-- The `error` returned by `CombinedOutput`. -/
def RunResult.err : RunResult → Option Str
  | .notStarted err => some err
  | .finished _ err => err

/-- Whether a child process was started. -/
def RunResult.started : RunResult → Bool
  | .notStarted _ => false
  | .finished _ _ => true

/-- The environment of one request: the result of `os.Getwd()` (directory or
error text) and, for each executable path and argument list, what the
operating system does when asked to run it. -/
structure World where
  getwd : Except Str Str
  run : Str → List Str → RunResult

/-- Whether a string contains a NUL byte. -/
def hasNul (a : Str) : Bool := a.any fun b => b = 0

/-- Go `cmd.CombinedOutput()` for `exec.CommandContext(ctx, path, args...)` with
an absolute `path`: `os.StartProcess` refuses a path or an argument that
contains a NUL byte with `EINVAL` before any `fork` (`syscall.SlicePtrFromStrings`);
otherwise the outcome is the operating system's. -/
def combinedOutput (world : World) (path : Str) (args : List Str) : RunResult :=
  if (path :: args).any hasNul then
    .notStarted (lit "fork/exec " ++ path ++ lit ": invalid argument")
  else world.run path args

/-- Response under construction together with the actions performed so far. -/
structure State where
  w : ResponseWriter
  events : List Event
  deriving DecidableEq, Repr

/-- State at the start of a request. -/
def State.fresh : State := ⟨ResponseWriter.fresh, []⟩

/-- State when the outermost handler or a wrapped one is entered: the header
fields set so far, nothing written, nothing done. -/
def State.start (header : List (Str × Str)) : State := ⟨⟨header, none, []⟩, []⟩

/-- The child processes started, in order. -/
def State.spawned (st : State) : List (Str × List Str) :=
  st.events.filterMap fun e =>
    match e with
    | .exec path args => some (path, args)
    | _ => none

/-- The commands `CombinedOutput` was called on, in order, each with the bound
of its context in seconds. -/
def State.commands (st : State) : List (Str × List Str × Nat) :=
  st.events.filterMap fun e =>
    match e with
    | .combinedOutput path args timeout => some (path, args, timeout)
    | _ => none

/-- The messages written to the server log, in order. -/
def State.logged (st : State) : List Str :=
  st.events.filterMap fun e =>
    match e with
    | .log line => some line
    | _ => none

/-- A handler: `func(w http.ResponseWriter, r *http.Request)`. -/
abbrev Handler := State → Request → State

/-! ## `main.go`: the script-backed endpoints -/

/-- The limit given to `http.MaxBytesReader`: `10<<20`. -/
def maxBodyBytes : Nat := 10 <<< 20

/-- The bound of `context.WithTimeout(r.Context(), 30*time.Second)`, in seconds. -/
def scriptTimeout : Nat := 30

/-- `runScriptReturningJSONField` of `main.go`. -/
def runScriptReturningJSONField (world : World) (st : State) (r : Request)
    (scriptName responseField : Str) : State :=
  if r.method ≠ MethodPost then
    { st with w := httpError st.w (lit "Only POST method is allowed") 405 }
  else
    match decodeRequestBody maxBodyBytes r.body with
    | .error _ => { st with w := httpError st.w (lit "Invalid request body") 400 }
    | .ok req =>
      match world.getwd with
      | .error err =>
        { w := httpError st.w (lit "Server error") 500
          events := st.events ++ [.getwd, .log (lit "Getwd error: " ++ err)] }
      | .ok wd =>
        let scriptPath := filepathJoin wd scriptName
        let args := [req.Database, req.Base64Value]
        let result := combinedOutput world scriptPath args
        let called := st.events ++ [.getwd, .combinedOutput scriptPath args scriptTimeout]
          ++ (if result.started then [.exec scriptPath args] else [])
        match result.err with
        | some err =>
          { w := httpError st.w (lit "Error: " ++ err) 500
            events := called ++
              [.log (lit "Script failed (" ++ scriptName ++ lit "): " ++ err
                ++ lit "; output=" ++ result.output)] }
        | none =>
          { w := ((st.w.Set (lit "Content-Type") (lit "application/json")).Write
              (encodeSingletonMap responseField result.output))
            events := called }

/-- `Base64PostJsonReturn` of `main.go`. -/
def Base64PostJsonReturn (world : World) : Handler := fun st r =>
  runScriptReturningJSONField world st r (lit "base64_query_json_return.sh") (lit "jsonResultsObj")

/-- `Base64QueryPostBase64Return` of `main.go`. -/
def Base64QueryPostBase64Return (world : World) : Handler := fun st r =>
  runScriptReturningJSONField world st r (lit "base64_query_base64_return.sh")
    (lit "base64ResultsObj")

/-- `Base64NoQuery` of `main.go`. -/
def Base64NoQuery (world : World) : Handler := fun st r =>
  runScriptReturningJSONField world st r (lit "base64_non_query.sh") (lit "jsonResultsObj")

/-- The three script-backed routes registered in `main`. -/
inductive ScriptRoute
  | base64querypostbase64return | base64postjsonreturn | base64nonquery
  deriving DecidableEq, Repr

/-- The pattern each route is registered under (`mux.HandleFunc` in `main`). -/
def ScriptRoute.pattern : ScriptRoute → Str
  | .base64querypostbase64return => lit "/base64querypostbase64return"
  | .base64postjsonreturn => lit "/base64postjsonreturn"
  | .base64nonquery => lit "/base64nonquery"

/-- The function `main` registers for the route. -/
def ScriptRoute.handler (world : World) : ScriptRoute → Handler
  | .base64querypostbase64return => Base64QueryPostBase64Return world
  | .base64postjsonreturn => Base64PostJsonReturn world
  | .base64nonquery => Base64NoQuery world

/-- The script file the route's function names. -/
def ScriptRoute.scriptName : ScriptRoute → Str
  | .base64querypostbase64return => lit "base64_query_base64_return.sh"
  | .base64postjsonreturn => lit "base64_query_json_return.sh"
  | .base64nonquery => lit "base64_non_query.sh"

/-- The response field the route's function names. -/
def ScriptRoute.responseField : ScriptRoute → Str
  | .base64querypostbase64return => lit "base64ResultsObj"
  | .base64postjsonreturn => lit "jsonResultsObj"
  | .base64nonquery => lit "jsonResultsObj"

/-! ## `main.go`: configuration -/

/-- A value `yaml.v2` stores in an `interface{}`. -/
inductive ConfigValue
  | str (s : Str)
  | int (i : Int)
  | float (bits : Nat)
  | bool (b : Bool)
  | null
  | seq (items : List ConfigValue)
  | map (entries : List (ConfigValue × ConfigValue))

/-- The global `configMap` of `main.go`: a `map[string]interface{}`, `none`
while it is `nil`. -/
abbrev ConfigMap := Option (List (Str × ConfigValue))

/-- `getConfigValue` of `main.go`. -/
def getConfigValue (configMap : ConfigMap) (configName : Str) : Str :=
  match configMap with
  | none => []
  | some m =>
    match m.lookup configName with
    | none => []
    | some value =>
      match value with
      | .str s => s
      | _ => []

/-- `getCorsAllowedList` of `main.go`. -/
def getCorsAllowedList (configMap : ConfigMap) : Str :=
  getConfigValue configMap (lit "cors_allowed_domains")

/-- `applyCors` of `main.go`. -/
def applyCors (configMap : ConfigMap) (next : Handler) : Handler := fun st r =>
  let corsString := getCorsAllowedList configMap
  let w :=
    ((st.w.Set (lit "Access-Control-Allow-Origin") corsString).Set
      (lit "Access-Control-Allow-Methods") (lit "GET, POST, OPTIONS, PATCH")).Set
      (lit "Access-Control-Allow-Headers") (lit "Content-Type")
  if r.method = MethodOptions then { st with w := w.WriteHeader 204 }
  else next { st with w := w } r

/-! ## `main.go`: start-up -/

/-- The result of `os.Stat`: whether it returned an error and whether
`os.IsNotExist` holds of that error. -/
inductive StatResult
  | found
  | notExist
  | otherError
  deriving DecidableEq, Repr

/-- The environment of `main`: reading a file (content or error text),
`yaml.Unmarshal` into a `map[string]interface{}` (the map, `nil` for an empty
document, or error text) and `os.Stat`. -/
structure StartupWorld where
  readFile : Str → Except Str Str
  yamlUnmarshal : Str → Except Str ConfigMap
  stat : Str → StatResult

/-- `loadConfig` of `main.go`: the new value of `configMap` and the error
returned. -/
def loadConfig (sw : StartupWorld) (path : Str) (configMap : ConfigMap) :
    ConfigMap × Option Str :=
  match sw.readFile path with
  | .error err => (configMap, some err)
  | .ok b =>
    match sw.yamlUnmarshal b with
    | .error err => (configMap, some err)
    | .ok m => (m, none)

/-- What `main` does that is visible from outside. -/
inductive StartupEvent
  /-- `log.Fatal` / `log.Fatalf`: the message is logged and the process exits
  with status 1. -/
  | fatal (msg : Str)
  /-- `log.Printf`. -/
  | print (msg : Str)
  /-- `server.ListenAndServeTLS(certFile, keyFile)` is called on address
  `addr`: the listener is bound. -/
  | listenAndServeTLS (addr certFile keyFile : Str)
  deriving DecidableEq, Repr

/-- `main` of `main.go`, up to the call of `ListenAndServeTLS` (which returns
only with an error, reported by `log.Fatalf`): the final `configMap` and the
visible actions in order. -/
def main (sw : StartupWorld) : ConfigMap × List StartupEvent :=
  match loadConfig sw (lit "config.yml") none with
  | (configMap, some err) => (configMap, [.fatal (lit "Failed to load config.yml: " ++ err)])
  | (configMap, none) =>
    let port := getConfigValue configMap (lit "api_port")
    if port = [] then (configMap, [.fatal (lit "api_port missing/empty in config.yml")])
    else
      let addr := lit ":" ++ port
      let certFile := lit "fullchain.pem"
      let keyFile := lit "localhost.key"
      if sw.stat certFile = .notExist then
        (configMap, [.fatal (lit "Cert file not found: " ++ certFile)])
      else if sw.stat keyFile = .notExist then
        (configMap, [.fatal (lit "Key file not found: " ++ keyFile)])
      else
        (configMap,
          [.print (lit "API running on https://localhost" ++ addr),
           .listenAndServeTLS addr certFile keyFile])

/-! ## Sample inputs and auxiliary definitions -/

/-- A working directory and a script that echoes its arguments. -/
def echoWorld : World :=
  ⟨.ok (lit "/srv/api"), fun _ args => .finished (([0x20] : Str).intercalate args ++ [0x0A]) none⟩

/-- The request body of the scenario in the interface description. -/
def sampleBody : Str := lit "\x7b\"database\":\"mydb\",\"base64value\":\"aGVsbG8=\"\x7d"

/-- An envelope whose `database` holds the escape of a NUL byte. -/
def nulBody : Str := lit "\x7b\"database\":\"a\\u0000b\",\"base64value\":\"x\"\x7d"

/-- A well-formed POST request. -/
def samplePost : Request := ⟨MethodPost, sampleBody⟩

/-- A world whose script exits with status 1 after writing `out`. -/
def failingWorld (out : Str) : World :=
  ⟨.ok (lit "/srv/api"), fun _ _ => .finished out (some (lit "exit status 1"))⟩

/-- The three header fields `applyCors` sets, on an empty header. -/
def corsHeader (configMap : ConfigMap) : List (Str × Str) :=
  [(lit "Access-Control-Allow-Origin", getCorsAllowedList configMap),
   (lit "Access-Control-Allow-Methods", lit "GET, POST, OPTIONS, PATCH"),
   (lit "Access-Control-Allow-Headers", lit "Content-Type")]

/-- A configuration with a port and one allowed origin. -/
def sampleConfig : ConfigMap :=
  some [(lit "api_port", .str (lit "3101")),
        (lit "cors_allowed_domains", .str (lit "https://app.example"))]

/-- A start-up environment whose `config.yml` parses to the given map and in
which both TLS files exist. -/
def startupWith (configMap : ConfigMap) : StartupWorld :=
  ⟨fun _ => .ok [], fun _ => .ok configMap, fun _ => .found⟩

/-- The sample envelope followed by 10 MiB of spaces. -/
def oversizedBody : Str := sampleBody ++ List.replicate maxBodyBytes 0x20

/-- An unterminated string of more than 10 MiB. -/
def endlessString : Str :=
  lit "\x7b\"database\":\"" ++ List.replicate maxBodyBytes 0x61

/-- The reader's walk over `pre` when no byte of it completes the value or is
a syntax error: scanner and collector after the last byte. -/
def scanThrough (s : Scanner) (k : Collector) : Str → Option (Scanner × Collector)
  | [] => some (s, k)
  | c :: rest =>
    match (s.next c).2 with
    | .scanEnd => none
    | .scanError => none
    | .endObject | .endArray =>
      if (stateEndValue (s.next c).1 0x20).2 = .scanEnd then none
      else scanThrough (s.next c).1 (k.collect s.parseState c (s.next c).2) rest
    | _ => scanThrough (s.next c).1 (k.collect s.parseState c (s.next c).2) rest

/-- A world whose script succeeds after writing the single byte `0xFF`. -/
def binaryWorld : World := ⟨.ok (lit "/srv/api"), fun _ _ => .finished [0xFF] none⟩

/-! ## `encoding/json`: a whole text as one document -/

/-- The loop of Go `checkValid`: the scanner after every byte of the text,
`none` if one of them is a syntax error. -/
def scanAll (s : Scanner) : Str → Option Scanner
  | [] => some s
  | c :: rest => if (s.next c).2 = .scanError then none else scanAll (s.next c).1 rest

/-- Go `scanner.eof` reporting `scanEnd`: no error is pending and the top-level
value is complete, if need be after one more space. -/
def eofOk (s : Scanner) : Bool :=
  s.step ≠ .error && (s.step = .endTop || (s.next 0x20).1.step = .endTop)

/-- Go `json.Valid`: the whole text is one JSON value, possibly surrounded by
white space. -/
def jsonValid (data : Str) : Bool :=
  match scanAll Scanner.reset data with
  | none => false
  | some s => eofOk s

/-- Go `json.Unmarshal(data, &req)` of `encoding/json`: `checkValid` over the
whole text first, so that anything but white space after the value is a syntax
error; then the same `decodeState.unmarshal` the stream decoder runs on the
value, here reached through the decoder with a limit the text cannot exceed. -/
def jsonUnmarshal (data : Str) : Except DecodeError RequestBody :=
  if jsonValid data then decodeRequestBody data.length data else .error .badSyntax

/-- The condition of the specification, in its words: the text is well-formed
JSON decodable as the two-string-field request envelope. -/
def wellFormedEnvelope (data : Str) : Bool :=
  match jsonUnmarshal data with
  | .ok _ => true
  | .error _ => false

/-- States the scanner can be in: an array has been opened whenever an array
element or `]` is expected. -/
def Scanner.wf (s : Scanner) : Prop := s.step = .beginValueOrEmpty → s.parseState ≠ []

/-- A closing bracket that empties the scanner stack leaves the scanner at the
end of the top-level value (Go `popParseState`). -/
def CloseTop (r : Scanner × Op) : Prop :=
  (r.2 = .endObject ∨ r.2 = .endArray) → r.1.parseState = [] → r.1.step = .endTop

/-- The sample envelope followed by bytes that are not JSON. -/
def trailingGarbageBody : Str := sampleBody ++ lit "garbage"

/-- A start-up environment with the sample configuration in which `os.Stat`
fails on `fullchain.pem` with an error that is not a not-exist error (a
symbolic-link loop, a directory that may not be searched) and finds
`localhost.key`. -/
def unreadableCertWorld : StartupWorld :=
  ⟨fun _ => .ok [], fun _ => .ok sampleConfig,
    fun p => if p = lit "fullchain.pem" then .otherError else .found⟩

/-- The pieces the encoder writes, each with the bytes it stands for: a byte
copied as it is, an escaped ASCII byte, the escape of an invalid byte, the
escape of U+2028 or U+2029, and a well-formed sequence of two, three or four
bytes copied as it is. -/
inductive Chunk : Str → Str → Prop
  | plain (b : Nat) (h : htmlSafe b = true) : Chunk [b] [b]
  | escape (b : Nat) (hb : b < 0x80) (h : htmlSafe b = false) : Chunk (escapeByte b) [b]
  | invalid : Chunk [0x5C, 0x75, 0x66, 0x66, 0x66, 0x64] [0xEF, 0xBF, 0xBD]
  | separator (n : Nat) (h : n = 8 ∨ n = 9) :
    Chunk [0x5C, 0x75, 0x32, 0x30, 0x32, hexDigit n] [0xE2, 0x80, 0xA0 + n]
  | two (b b1 : Nat) (h0 : 0xC2 ≤ b) (h1 : b < 0xE0) (h2 : 0x80 ≤ b1) (h3 : b1 ≤ 0xBF) :
    Chunk [b, b1] [b, b1]
  | three (b b1 b2 : Nat) (h0 : 0xE0 ≤ b) (h1 : b < 0xF0) (h2 : 0x80 ≤ b1) (h3 : b1 ≤ 0xBF)
    (h4 : b = 0xE0 → 0xA0 ≤ b1) (h5 : b = 0xED → b1 ≤ 0x9F) (h6 : 0x80 ≤ b2) (h7 : b2 ≤ 0xBF) :
    Chunk [b, b1, b2] [b, b1, b2]
  | four (b b1 b2 b3 : Nat) (h0 : 0xF0 ≤ b) (h1 : b < 0xF5) (h2 : 0x80 ≤ b1) (h3 : b1 ≤ 0xBF)
    (h4 : b = 0xF0 → 0x90 ≤ b1) (h5 : b = 0xF4 → b1 ≤ 0x8F) (h6 : 0x80 ≤ b2) (h7 : b2 ≤ 0xBF)
    (h8 : 0x80 ≤ b3) (h9 : b3 ≤ 0xBF) : Chunk [b, b1, b2, b3] [b, b1, b2, b3]

/-! ## The response writer and the branches of the handler -/

theorem setField_lookup_self (k v : Str) (h : List (Str × Str)) :
    (setField k v h).lookup k = some v := by
  induction h with
  | nil => simp [setField, List.lookup]
  | cons p rest ih =>
    obtain ⟨k1, v1⟩ := p
    by_cases hk : k1 = k
    · simp [setField, hk, List.lookup]
    · have hne : (k == k1) = false := by
        simpa using fun h' => hk h'.symm
      simp [setField, hk, List.lookup, hne, ih]

theorem httpError_status (hdr : List (Str × Str)) (msg : Str) (code : Nat) :
    (httpError ⟨hdr, none, []⟩ msg code).status = some code := by
  simp [httpError, ResponseWriter.Set, ResponseWriter.WriteHeader, ResponseWriter.Write]
  split <;> rfl

theorem httpError_body (hdr : List (Str × Str)) (msg : Str) (code : Nat)
    (h : bodyAllowedForStatus code = true) :
    (httpError ⟨hdr, none, []⟩ msg code).body = msg ++ [0x0A] := by
  simp [httpError, ResponseWriter.Set, ResponseWriter.WriteHeader, ResponseWriter.Write, h]

theorem handler_eq (world : World) (route : ScriptRoute) (st : State) (r : Request) :
    route.handler world st r =
      runScriptReturningJSONField world st r route.scriptName route.responseField := by
  cases route <;> rfl

theorem run_not_post (world : World) (st : State) (r : Request) (script field : Str)
    (h : r.method ≠ MethodPost) :
    runScriptReturningJSONField world st r script field =
      { st with w := httpError st.w (lit "Only POST method is allowed") 405 } := by
  simp [runScriptReturningJSONField, h]

theorem run_bad_body (world : World) (st : State) (r : Request) (script field : Str)
    (e : DecodeError) (h : r.method = MethodPost)
    (hd : decodeRequestBody maxBodyBytes r.body = .error e) :
    runScriptReturningJSONField world st r script field =
      { st with w := httpError st.w (lit "Invalid request body") 400 } := by
  simp [runScriptReturningJSONField, h, hd]

theorem run_getwd_error (world : World) (st : State) (r : Request) (script field : Str)
    (req : RequestBody) (err : Str) (h : r.method = MethodPost)
    (hd : decodeRequestBody maxBodyBytes r.body = .ok req) (hw : world.getwd = .error err) :
    runScriptReturningJSONField world st r script field =
      { w := httpError st.w (lit "Server error") 500
        events := st.events ++ [.getwd, .log (lit "Getwd error: " ++ err)] } := by
  simp [runScriptReturningJSONField, h, hd, hw]

theorem run_called (world : World) (st : State) (r : Request) (script field : Str)
    (req : RequestBody) (wd : Str) (h : r.method = MethodPost)
    (hd : decodeRequestBody maxBodyBytes r.body = .ok req) (hw : world.getwd = .ok wd) :
    runScriptReturningJSONField world st r script field =
      match (combinedOutput world (filepathJoin wd script)
        [req.Database, req.Base64Value]).err with
      | some err =>
        { w := httpError st.w (lit "Error: " ++ err) 500
          events := st.events ++
            [.getwd, .combinedOutput (filepathJoin wd script) [req.Database, req.Base64Value]
              scriptTimeout]
            ++ (if (combinedOutput world (filepathJoin wd script)
                [req.Database, req.Base64Value]).started
              then [.exec (filepathJoin wd script) [req.Database, req.Base64Value]] else [])
            ++ [.log (lit "Script failed (" ++ script ++ lit "): " ++ err ++ lit "; output="
              ++ (combinedOutput world (filepathJoin wd script)
                [req.Database, req.Base64Value]).output)] }
      | none =>
        { w := (st.w.Set (lit "Content-Type") (lit "application/json")).Write
            (encodeSingletonMap field (combinedOutput world (filepathJoin wd script)
              [req.Database, req.Base64Value]).output)
          events := st.events ++
            [.getwd, .combinedOutput (filepathJoin wd script) [req.Database, req.Base64Value]
              scriptTimeout]
            ++ (if (combinedOutput world (filepathJoin wd script)
                [req.Database, req.Base64Value]).started
              then [.exec (filepathJoin wd script) [req.Database, req.Base64Value]] else []) } := by
  simp only [runScriptReturningJSONField, h, hd, hw, ne_eq, not_true_eq_false, if_false]

theorem run_script_failed (world : World) (st : State) (r : Request) (script field : Str)
    (req : RequestBody) (wd out err : Str) (h : r.method = MethodPost)
    (hd : decodeRequestBody maxBodyBytes r.body = .ok req) (hw : world.getwd = .ok wd)
    (he : (combinedOutput world (filepathJoin wd script) [req.Database, req.Base64Value]).err
      = some err)
    (ho : (combinedOutput world (filepathJoin wd script) [req.Database, req.Base64Value]).output
      = out) :
    (runScriptReturningJSONField world st r script field).w
        = httpError st.w (lit "Error: " ++ err) 500 ∧
      (runScriptReturningJSONField world st r script field).logged = st.logged ++
        [lit "Script failed (" ++ script ++ lit "): " ++ err ++ lit "; output=" ++ out] := by
  rw [run_called world st r script field req wd h hd hw, he, ho]
  refine ⟨rfl, ?_⟩
  simp only [State.logged, List.filterMap_append, List.filterMap_cons, List.filterMap_nil]
  split <;> simp

theorem run_script_ok (world : World) (st : State) (r : Request) (script field : Str)
    (req : RequestBody) (wd out : Str) (h : r.method = MethodPost)
    (hd : decodeRequestBody maxBodyBytes r.body = .ok req) (hw : world.getwd = .ok wd)
    (hr : combinedOutput world (filepathJoin wd script) [req.Database, req.Base64Value]
      = .finished out none) :
    runScriptReturningJSONField world st r script field =
      { w := (st.w.Set (lit "Content-Type") (lit "application/json")).Write
          (encodeSingletonMap field out)
        events := st.events ++
          [.getwd, .combinedOutput (filepathJoin wd script) [req.Database, req.Base64Value]
            scriptTimeout,
           .exec (filepathJoin wd script) [req.Database, req.Base64Value]] } := by
  rw [run_called world st r script field req wd h hd hw, hr]
  simp [RunResult.err, RunResult.output, RunResult.started]

/-! ## UTF-8: decoding and encoding a rune -/

theorem decodeRune_two (b b1 : Nat) (tl : Str) (h0 : 0xC2 ≤ b) (h1 : b < 0xE0)
    (h2 : 0x80 ≤ b1) (h3 : b1 ≤ 0xBF) :
    decodeRune (b :: b1 :: tl) = (b % 32 * 64 + b1 % 64, 2) := by
  have e1 : ¬ b < 0x80 := by omega
  have e2 : ¬ b < 0xC2 := by omega
  simp [decodeRune, inRange, e1, e2, h1, h2, h3]

theorem decodeRune_three (b b1 b2 : Nat) (tl : Str) (h0 : 0xE0 ≤ b) (h1 : b < 0xF0)
    (h2 : 0x80 ≤ b1) (h3 : b1 ≤ 0xBF) (h4 : b = 0xE0 → 0xA0 ≤ b1) (h5 : b = 0xED → b1 ≤ 0x9F)
    (h6 : 0x80 ≤ b2) (h7 : b2 ≤ 0xBF) :
    decodeRune (b :: b1 :: b2 :: tl) = (b % 16 * 4096 + b1 % 64 * 64 + b2 % 64, 3) := by
  have e1 : ¬ b < 0x80 := by omega
  have e2 : ¬ b < 0xC2 := by omega
  have e3 : ¬ b < 0xE0 := by omega
  have e4 : (if b = 0xE0 then 0xA0 else 0x80) ≤ b1 := by split <;> omega
  have e5 : b1 ≤ (if b = 0xED then 0x9F else 0xBF) := by split <;> omega
  simp [decodeRune, inRange, e1, e2, e3, h1, e4, e5, h6, h7]

theorem decodeRune_four (b b1 b2 b3 : Nat) (tl : Str) (h0 : 0xF0 ≤ b) (h1 : b < 0xF5)
    (h2 : 0x80 ≤ b1) (h3 : b1 ≤ 0xBF) (h4 : b = 0xF0 → 0x90 ≤ b1) (h5 : b = 0xF4 → b1 ≤ 0x8F)
    (h6 : 0x80 ≤ b2) (h7 : b2 ≤ 0xBF) (h8 : 0x80 ≤ b3) (h9 : b3 ≤ 0xBF) :
    decodeRune (b :: b1 :: b2 :: b3 :: tl)
      = (b % 8 * 262144 + b1 % 64 * 4096 + b2 % 64 * 64 + b3 % 64, 4) := by
  have e1 : ¬ b < 0x80 := by omega
  have e2 : ¬ b < 0xC2 := by omega
  have e3 : ¬ b < 0xE0 := by omega
  have e3b : ¬ b < 0xF0 := by omega
  have e4 : (if b = 0xF0 then 0x90 else 0x80) ≤ b1 := by split <;> omega
  have e5 : b1 ≤ (if b = 0xF4 then 0x8F else 0xBF) := by split <;> omega
  simp [decodeRune, inRange, e1, e2, e3, e3b, h1, e4, e5, h6, h7, h8, h9]

/-- The shapes of a decoded rune that starts with a byte above `0x7F`. -/
theorem decodeRune_cases (b : Nat) (rest : Str) (hb : 0x80 ≤ b) :
    decodeRune (b :: rest) = (runeError, 1) ∨
    (∃ b1 tl, rest = b1 :: tl ∧ 0xC2 ≤ b ∧ b < 0xE0 ∧ 0x80 ≤ b1 ∧ b1 ≤ 0xBF) ∨
    (∃ b1 b2 tl, rest = b1 :: b2 :: tl ∧ 0xE0 ≤ b ∧ b < 0xF0 ∧ 0x80 ≤ b1 ∧ b1 ≤ 0xBF ∧
      (b = 0xE0 → 0xA0 ≤ b1) ∧ (b = 0xED → b1 ≤ 0x9F) ∧ 0x80 ≤ b2 ∧ b2 ≤ 0xBF) ∨
    (∃ b1 b2 b3 tl, rest = b1 :: b2 :: b3 :: tl ∧ 0xF0 ≤ b ∧ b < 0xF5 ∧ 0x80 ≤ b1 ∧ b1 ≤ 0xBF ∧
      (b = 0xF0 → 0x90 ≤ b1) ∧ (b = 0xF4 → b1 ≤ 0x8F) ∧ 0x80 ≤ b2 ∧ b2 ≤ 0xBF ∧
      0x80 ≤ b3 ∧ b3 ≤ 0xBF) := by
  have e1 : ¬ b < 0x80 := by omega
  by_cases c1 : b < 0xC2
  · left; simp [decodeRune, e1, c1]
  by_cases c2 : b < 0xE0
  · rcases rest with _ | ⟨b1, tl⟩
    · left; simp [decodeRune, e1, c1, c2]
    · by_cases r1 : 0x80 ≤ b1 ∧ b1 ≤ 0xBF
      · right; left; exact ⟨b1, tl, rfl, by omega, c2, r1.1, r1.2⟩
      · left
        have : inRange 0x80 0xBF b1 = false := by
          simp only [inRange, Bool.and_eq_false_iff, decide_eq_false_iff_not]; omega
        simp [decodeRune, e1, c1, c2, this]
  by_cases c3 : b < 0xF0
  · rcases rest with _ | ⟨b1, _ | ⟨b2, tl⟩⟩
    · left; simp [decodeRune, e1, c1, c2, c3]
    · left; simp [decodeRune, e1, c1, c2, c3]
    · by_cases r1 : (0x80 ≤ b1 ∧ b1 ≤ 0xBF ∧ (b = 0xE0 → 0xA0 ≤ b1) ∧ (b = 0xED → b1 ≤ 0x9F))
          ∧ 0x80 ≤ b2 ∧ b2 ≤ 0xBF
      · right; right; left
        exact ⟨b1, b2, tl, rfl, by omega, c3, r1.1.1, r1.1.2.1, r1.1.2.2.1, r1.1.2.2.2,
          r1.2.1, r1.2.2⟩
      · left
        have : (inRange (if b = 0xE0 then 0xA0 else 0x80) (if b = 0xED then 0x9F else 0xBF) b1
            && inRange 0x80 0xBF b2) = false := by
          simp only [inRange, Bool.and_eq_false_iff, decide_eq_false_iff_not]
          split <;> split <;> omega
        simp [decodeRune, e1, c1, c2, c3, this]
  by_cases c4 : b < 0xF5
  · rcases rest with _ | ⟨b1, _ | ⟨b2, _ | ⟨b3, tl⟩⟩⟩
    · left; simp [decodeRune, e1, c1, c2, c3, c4]
    · left; simp [decodeRune, e1, c1, c2, c3, c4]
    · left; simp [decodeRune, e1, c1, c2, c3, c4]
    · by_cases r1 : (0x80 ≤ b1 ∧ b1 ≤ 0xBF ∧ (b = 0xF0 → 0x90 ≤ b1) ∧ (b = 0xF4 → b1 ≤ 0x8F))
          ∧ (0x80 ≤ b2 ∧ b2 ≤ 0xBF) ∧ 0x80 ≤ b3 ∧ b3 ≤ 0xBF
      · right; right; right
        exact ⟨b1, b2, b3, tl, rfl, by omega, c4, r1.1.1, r1.1.2.1, r1.1.2.2.1, r1.1.2.2.2,
          r1.2.1.1, r1.2.1.2, r1.2.2.1, r1.2.2.2⟩
      · left
        have : (inRange (if b = 0xF0 then 0x90 else 0x80) (if b = 0xF4 then 0x8F else 0xBF) b1
            && inRange 0x80 0xBF b2 && inRange 0x80 0xBF b3) = false := by
          simp only [inRange, Bool.and_eq_false_iff, decide_eq_false_iff_not]
          split <;> split <;> omega
        simp [decodeRune, e1, c1, c2, c3, c4, this]
  · left; simp [decodeRune, e1, c1, c2, c3, c4]

theorem appendRune_two (b b1 : Nat) (h0 : 0xC2 ≤ b) (h1 : b < 0xE0)
    (h2 : 0x80 ≤ b1) (h3 : b1 ≤ 0xBF) :
    appendRune (b % 32 * 64 + b1 % 64) = [b, b1] := by
  have e1 : ¬ (b % 32 * 64 + b1 % 64 < 0x80) := by omega
  have e2 : b % 32 * 64 + b1 % 64 < 0x800 := by omega
  simp only [appendRune, e1, e2, if_true, if_false]
  congr 1
  · omega
  · congr 1; omega

theorem appendRune_three (b b1 b2 : Nat) (h0 : 0xE0 ≤ b) (h1 : b < 0xF0)
    (h2 : 0x80 ≤ b1) (h3 : b1 ≤ 0xBF) (h4 : b = 0xE0 → 0xA0 ≤ b1) (h5 : b = 0xED → b1 ≤ 0x9F)
    (h6 : 0x80 ≤ b2) (h7 : b2 ≤ 0xBF) :
    appendRune (b % 16 * 4096 + b1 % 64 * 64 + b2 % 64) = [b, b1, b2] := by
  have e1 : ¬ (b % 16 * 4096 + b1 % 64 * 64 + b2 % 64 < 0x80) := by omega
  have e2 : ¬ (b % 16 * 4096 + b1 % 64 * 64 + b2 % 64 < 0x800) := by omega
  have e3 : ¬ ((0xD800 ≤ b % 16 * 4096 + b1 % 64 * 64 + b2 % 64 ∧
      b % 16 * 4096 + b1 % 64 * 64 + b2 % 64 ≤ 0xDFFF) ∨
      0x10FFFF < b % 16 * 4096 + b1 % 64 * 64 + b2 % 64) := by omega
  have e4 : b % 16 * 4096 + b1 % 64 * 64 + b2 % 64 < 0x10000 := by omega
  simp only [appendRune, e1, e2, e3, e4, if_true, if_false]
  congr 1
  · omega
  · congr 1
    · omega
    · congr 1; omega

theorem appendRune_four (b b1 b2 b3 : Nat) (h0 : 0xF0 ≤ b) (h1 : b < 0xF5)
    (h2 : 0x80 ≤ b1) (h3 : b1 ≤ 0xBF) (h4 : b = 0xF0 → 0x90 ≤ b1) (h5 : b = 0xF4 → b1 ≤ 0x8F)
    (h6 : 0x80 ≤ b2) (h7 : b2 ≤ 0xBF) (h8 : 0x80 ≤ b3) (h9 : b3 ≤ 0xBF) :
    appendRune (b % 8 * 262144 + b1 % 64 * 4096 + b2 % 64 * 64 + b3 % 64) = [b, b1, b2, b3] := by
  have e1 : ¬ (b % 8 * 262144 + b1 % 64 * 4096 + b2 % 64 * 64 + b3 % 64 < 0x80) := by omega
  have e2 : ¬ (b % 8 * 262144 + b1 % 64 * 4096 + b2 % 64 * 64 + b3 % 64 < 0x800) := by omega
  have e3 : ¬ ((0xD800 ≤ b % 8 * 262144 + b1 % 64 * 4096 + b2 % 64 * 64 + b3 % 64 ∧
      b % 8 * 262144 + b1 % 64 * 4096 + b2 % 64 * 64 + b3 % 64 ≤ 0xDFFF) ∨
      0x10FFFF < b % 8 * 262144 + b1 % 64 * 4096 + b2 % 64 * 64 + b3 % 64) := by omega
  have e4 : ¬ (b % 8 * 262144 + b1 % 64 * 4096 + b2 % 64 * 64 + b3 % 64 < 0x10000) := by omega
  simp only [appendRune, e1, e2, e3, e4, if_true, if_false]
  congr 1
  · omega
  · congr 1
    · omega
    · congr 1
      · omega
      · congr 1; omega

/-- The only three-byte sequences that decode to U+2028 or U+2029. -/
theorem sep_bytes (b b1 b2 : Nat) (q0 : 0xE0 ≤ b) (q1 : b < 0xF0) (q2 : 0x80 ≤ b1)
    (q3 : b1 ≤ 0xBF) (q6 : 0x80 ≤ b2) (q7 : b2 ≤ 0xBF)
    (hsep : b % 16 * 4096 + b1 % 64 * 64 + b2 % 64 = 0x2028 ∨
      b % 16 * 4096 + b1 % 64 * 64 + b2 % 64 = 0x2029) :
    b = 0xE2 ∧ b1 = 0x80 ∧ 0xA0 + (b % 16 * 4096 + b1 % 64 * 64 + b2 % 64) % 16 = b2 ∧
      ((b % 16 * 4096 + b1 % 64 * 64 + b2 % 64) % 16 = 8 ∨
        (b % 16 * 4096 + b1 % 64 * 64 + b2 % 64) % 16 = 9) := by
  have hb : b % 16 = b - 0xE0 := by omega
  have hb1 : b1 % 64 = b1 - 0x80 := by omega
  have hb2 : b2 % 64 = b2 - 0x80 := by omega
  rw [hb, hb1, hb2] at hsep ⊢
  rcases hsep with h | h
  · rw [h]; omega
  · rw [h]; omega

/-! ## Unquoting what the encoder wrote -/

theorem unquoteLoop_cons (fuel c : Nat) (rest : Str) :
    unquoteLoop (fuel + 1) (c :: rest) =
    if c = 0x5C then
      match rest with
      | [] => none
      | e :: rest2 =>
        if e = 0x22 ∨ e = 0x5C ∨ e = 0x2F ∨ e = 0x27 then
          (unquoteLoop fuel rest2).map (e :: ·)
        else if e = 0x62 then (unquoteLoop fuel rest2).map (0x08 :: ·)
        else if e = 0x66 then (unquoteLoop fuel rest2).map (0x0C :: ·)
        else if e = 0x6E then (unquoteLoop fuel rest2).map (0x0A :: ·)
        else if e = 0x72 then (unquoteLoop fuel rest2).map (0x0D :: ·)
        else if e = 0x74 then (unquoteLoop fuel rest2).map (0x09 :: ·)
        else if e = 0x75 then
          match getu4 (c :: rest) with
          | none => none
          | some rr =>
            if isSurrogate rr then
              match getu4 (rest.drop 5) with
              | some rr1 =>
                if utf16DecodeRune rr rr1 ≠ runeError then
                  (unquoteLoop fuel ((rest.drop 5).drop 6)).map
                    (appendRune (utf16DecodeRune rr rr1) ++ ·)
                else (unquoteLoop fuel (rest.drop 5)).map (appendRune runeError ++ ·)
              | none => (unquoteLoop fuel (rest.drop 5)).map (appendRune runeError ++ ·)
            else (unquoteLoop fuel (rest.drop 5)).map (appendRune rr ++ ·)
        else none
    else if c = 0x22 ∨ c < 0x20 then none
    else if c < 0x80 then (unquoteLoop fuel rest).map (c :: ·)
    else
      (unquoteLoop fuel (rest.drop ((decodeRune (c :: rest)).2 - 1))).map
        (appendRune (decodeRune (c :: rest)).1 ++ ·) := rfl

theorem unquoteLoop_ascii (f c : Nat) (xs : Str) (h1 : c ≠ 0x5C) (h2 : c ≠ 0x22)
    (h3 : 0x20 ≤ c) (h4 : c < 0x80) :
    unquoteLoop (f + 1) (c :: xs) = (unquoteLoop f xs).map (c :: ·) := by
  have e : ¬ (c = 0x22 ∨ c < 0x20) := by omega
  rw [unquoteLoop_cons]; simp [h1, e, h4]

theorem hexVal_hexDigit (n : Nat) (h : n < 16) : hexVal (hexDigit n) = some n := by
  revert n; decide

theorem unquoteLoop_escapeByte (f b : Nat) (xs : Str) (hb : b < 0x80)
    (hs : htmlSafe b = false) :
    unquoteLoop (f + 1) (escapeByte b ++ xs) = (unquoteLoop f xs).map (b :: ·) := by
  by_cases c1 : b = 0x5C
  · subst c1; simp [escapeByte, unquoteLoop_cons]
  by_cases c2 : b = 0x22
  · subst c2; simp [escapeByte, unquoteLoop_cons]
  by_cases c3 : b = 0x08
  · subst c3; simp [escapeByte, unquoteLoop_cons]
  by_cases c4 : b = 0x0C
  · subst c4; simp [escapeByte, unquoteLoop_cons]
  by_cases c5 : b = 0x0A
  · subst c5; simp [escapeByte, unquoteLoop_cons]
  by_cases c6 : b = 0x0D
  · subst c6; simp [escapeByte, unquoteLoop_cons]
  by_cases c7 : b = 0x09
  · subst c7; simp [escapeByte, unquoteLoop_cons]
  have h1 := hexVal_hexDigit (b / 16) (by omega)
  have h2 := hexVal_hexDigit (b % 16) (by omega)
  have h0 : hexVal 0x30 = some 0 := by decide
  have hsur : isSurrogate (b / 16 * 16 + b % 16) = false := by
    simp only [isSurrogate, Bool.and_eq_false_iff, decide_eq_false_iff_not]; omega
  have hr : appendRune (b / 16 * 16 + b % 16) = [b] := by
    have : b / 16 * 16 + b % 16 = b := by omega
    rw [this]; simp [appendRune, hb]
  simp [escapeByte, unquoteLoop_cons, c1, c2, c3, c4, c5, c6, c7, getu4, h0, h1, h2, hsur, hr]

theorem unquoteLoop_fffd (f : Nat) (xs : Str) :
    unquoteLoop (f + 1) ([0x5C, 0x75, 0x66, 0x66, 0x66, 0x64] ++ xs)
      = (unquoteLoop f xs).map ([0xEF, 0xBF, 0xBD] ++ ·) := by
  have h : hexVal 0x66 = some 15 := by decide
  have h2 : hexVal 0x64 = some 13 := by decide
  have hs : isSurrogate (15 * 4096 + 15 * 256 + 15 * 16 + 13) = false := by decide
  have hr : appendRune (15 * 4096 + 15 * 256 + 15 * 16 + 13) = [0xEF, 0xBF, 0xBD] := by decide
  simp [unquoteLoop_cons, getu4, h, h2, hs, hr]

theorem unquoteLoop_u202 (f n : Nat) (xs : Str) (hn : n = 8 ∨ n = 9) :
    unquoteLoop (f + 1) ([0x5C, 0x75, 0x32, 0x30, 0x32, hexDigit n] ++ xs)
      = (unquoteLoop f xs).map ([0xE2, 0x80, 0xA0 + n] ++ ·) := by
  have h : hexVal 0x32 = some 2 := by decide
  have h2 : hexVal 0x30 = some 0 := by decide
  rcases hn with rfl | rfl
  · have h3 : hexVal (hexDigit 8) = some 8 := by decide
    have hs : isSurrogate (2 * 4096 + 0 * 256 + 2 * 16 + 8) = false := by decide
    have hr : appendRune (2 * 4096 + 0 * 256 + 2 * 16 + 8) = [0xE2, 0x80, 0xA8] := by decide
    simp [unquoteLoop_cons, getu4, h, h2, h3, hs, hr]
  · have h3 : hexVal (hexDigit 9) = some 9 := by decide
    have hs : isSurrogate (2 * 4096 + 0 * 256 + 2 * 16 + 9) = false := by decide
    have hr : appendRune (2 * 4096 + 0 * 256 + 2 * 16 + 9) = [0xE2, 0x80, 0xA9] := by decide
    simp [unquoteLoop_cons, getu4, h, h2, h3, hs, hr]

theorem unquoteLoop_rune (f b : Nat) (xs : Str) (hb : 0x80 ≤ b) :
    unquoteLoop (f + 1) (b :: xs) =
      (unquoteLoop f (xs.drop ((decodeRune (b :: xs)).2 - 1))).map
        (appendRune (decodeRune (b :: xs)).1 ++ ·) := by
  have e1 : b ≠ 0x5C := by omega
  have e2 : ¬ (b = 0x22 ∨ b < 0x20) := by omega
  have e3 : ¬ b < 0x80 := by omega
  rw [unquoteLoop_cons]; simp [e1, e2, e3]

theorem appendStringLoop_cons (fuel b : Nat) (rest : Str) :
    appendStringLoop (fuel + 1) (b :: rest) =
    if b < 0x80 then
      (if htmlSafe b then [b] else escapeByte b) ++ appendStringLoop fuel rest
    else
      if (decodeRune (b :: rest)).1 = runeError ∧ (decodeRune (b :: rest)).2 = 1 then
        [0x5C, 0x75, 0x66, 0x66, 0x66, 0x64] ++ appendStringLoop fuel rest
      else if (decodeRune (b :: rest)).1 = 0x2028 ∨ (decodeRune (b :: rest)).1 = 0x2029 then
        [0x5C, 0x75, 0x32, 0x30, 0x32, hexDigit ((decodeRune (b :: rest)).1 % 16)]
          ++ appendStringLoop fuel (rest.drop ((decodeRune (b :: rest)).2 - 1))
      else (b :: rest).take (decodeRune (b :: rest)).2
        ++ appendStringLoop fuel (rest.drop ((decodeRune (b :: rest)).2 - 1)) := rfl

theorem coerceLoop_cons (fuel b : Nat) (rest : Str) :
    coerceLoop (fuel + 1) (b :: rest) =
    if b < 0x80 then b :: coerceLoop fuel rest
    else
      if (decodeRune (b :: rest)).2 = 1 then [0xEF, 0xBF, 0xBD] ++ coerceLoop fuel rest
      else (b :: rest).take (decodeRune (b :: rest)).2
        ++ coerceLoop fuel (rest.drop ((decodeRune (b :: rest)).2 - 1)) := rfl

theorem escapeByte_length (b : Nat) : 2 ≤ (escapeByte b).length := by
  unfold escapeByte
  split_ifs <;> simp

theorem htmlSafe_plain (b : Nat) (h : htmlSafe b = true) :
    b ≠ 0x5C ∧ b ≠ 0x22 ∧ 0x20 ≤ b ∧ b < 0x80 := by
  simp only [htmlSafe, Bool.and_eq_true, decide_eq_true_eq, Bool.not_eq_true',
    Bool.or_eq_false_iff, decide_eq_false_iff_not] at h
  omega


theorem two_not_sep (b b1 : Nat) :
    ¬ (b % 32 * 64 + b1 % 64 = 0x2028 ∨ b % 32 * 64 + b1 % 64 = 0x2029) := by
  omega

theorem four_not_sep (b b1 b2 b3 : Nat) (h0 : 0xF0 ≤ b) (h1 : b < 0xF5) (h2 : 0x80 ≤ b1)
    (h3 : b1 ≤ 0xBF) (h4 : b = 0xF0 → 0x90 ≤ b1) :
    ¬ (b % 8 * 262144 + b1 % 64 * 4096 + b2 % 64 * 64 + b3 % 64 = 0x2028 ∨
      b % 8 * 262144 + b1 % 64 * 4096 + b2 % 64 * 64 + b3 % 64 = 0x2029) := by
  omega

/-- One iteration of the encoder loop: the piece it writes, the bytes that
piece stands for, and the rest of the source it continues with. -/
theorem appendStringLoop_step (fuel b : Nat) (rest : Str) :
    ∃ chunk dec tail, Chunk chunk dec ∧ tail.length ≤ rest.length ∧
      appendStringLoop (fuel + 1) (b :: rest) = chunk ++ appendStringLoop fuel tail ∧
      coerceLoop (fuel + 1) (b :: rest) = dec ++ coerceLoop fuel tail := by
  rw [appendStringLoop_cons, coerceLoop_cons]
  by_cases hb : b < 0x80
  · simp only [hb, if_true]
    by_cases hsafe : htmlSafe b = true
    · exact ⟨[b], [b], rest, .plain b hsafe, Nat.le_refl _, by simp [hsafe], rfl⟩
    · have hsafe2 : htmlSafe b = false := by simpa using hsafe
      exact ⟨escapeByte b, [b], rest, .escape b hb hsafe2, Nat.le_refl _, by simp [hsafe2], rfl⟩
  · simp only [hb, if_false]
    rcases decodeRune_cases b rest (Nat.le_of_not_lt hb) with hd |
      ⟨b1, tl, rfl, q0, q1, q2, q3⟩ |
      ⟨b1, b2, tl, rfl, q0, q1, q2, q3, q4, q5, q6, q7⟩ |
      ⟨b1, b2, b3, tl, rfl, q0, q1, q2, q3, q4, q5, q6, q7, q8, q9⟩
    · exact ⟨_, _, rest, .invalid, Nat.le_refl _, by simp only [hd, and_self, if_true],
        by simp only [hd, if_true]⟩
    · have hd := decodeRune_two b b1 tl q0 q1 q2 q3
      have hne1 := two_not_sep b b1
      refine ⟨[b, b1], [b, b1], tl, .two b b1 q0 q1 q2 q3, Nat.le_succ _, ?_, ?_⟩
      · simp only [hd, OfNat.ofNat_ne_one, and_false, if_false, hne1, List.take_succ_cons,
          List.take_zero, Nat.add_one_sub_one, List.drop_succ_cons, List.drop_zero]
      · simp only [hd, OfNat.ofNat_ne_one, if_false, List.take_succ_cons,
          List.take_zero, Nat.add_one_sub_one, List.drop_succ_cons, List.drop_zero]
    · have hd := decodeRune_three b b1 b2 tl q0 q1 q2 q3 q4 q5 q6 q7
      by_cases hsep : b % 16 * 4096 + b1 % 64 * 64 + b2 % 64 = 0x2028 ∨
          b % 16 * 4096 + b1 % 64 * 64 + b2 % 64 = 0x2029
      · obtain ⟨e1, e2, e3, h89⟩ := sep_bytes b b1 b2 q0 q1 q2 q3 q6 q7 hsep
        refine ⟨_, _, tl, .separator _ h89, Nat.le_succ_of_le (Nat.le_succ _), ?_, ?_⟩
        · simp only [hd, OfNat.ofNat_ne_one, and_false, if_false, hsep, if_true,
            List.drop_succ_cons, List.drop_zero, show (3 : Nat) - 1 = 2 from rfl]
        · simp only [hd, OfNat.ofNat_ne_one, if_false, List.take_succ_cons,
            List.take_zero, List.drop_succ_cons, List.drop_zero,
            show (3 : Nat) - 1 = 2 from rfl]
          rw [e3]
          subst e1 e2
          rfl
      · refine ⟨[b, b1, b2], [b, b1, b2], tl, .three b b1 b2 q0 q1 q2 q3 q4 q5 q6 q7,
          Nat.le_succ_of_le (Nat.le_succ _), ?_, ?_⟩
        · simp only [hd, OfNat.ofNat_ne_one, and_false, if_false, hsep, List.take_succ_cons,
            List.take_zero, List.drop_succ_cons, List.drop_zero,
            show (3 : Nat) - 1 = 2 from rfl]
        · simp only [hd, OfNat.ofNat_ne_one, if_false, List.take_succ_cons,
            List.take_zero, List.drop_succ_cons, List.drop_zero,
            show (3 : Nat) - 1 = 2 from rfl]
    · have hd := decodeRune_four b b1 b2 b3 tl q0 q1 q2 q3 q4 q5 q6 q7 q8 q9
      have hne1 := four_not_sep b b1 b2 b3 q0 q1 q2 q3 q4
      refine ⟨[b, b1, b2, b3], [b, b1, b2, b3], tl,
        .four b b1 b2 b3 q0 q1 q2 q3 q4 q5 q6 q7 q8 q9,
        Nat.le_succ_of_le (Nat.le_succ_of_le (Nat.le_succ _)), ?_, ?_⟩
      · simp only [hd, OfNat.ofNat_ne_one, and_false, if_false, hne1, List.take_succ_cons,
          List.take_zero, List.drop_succ_cons, List.drop_zero,
          show (4 : Nat) - 1 = 3 from rfl]
      · simp only [hd, OfNat.ofNat_ne_one, if_false, List.take_succ_cons,
          List.take_zero, List.drop_succ_cons, List.drop_zero,
          show (4 : Nat) - 1 = 3 from rfl]

theorem chunk_length_pos (chunk dec : Str) (h : Chunk chunk dec) : 1 ≤ chunk.length := by
  cases h with
  | escape b hb hs => exact Nat.le_trans (by decide) (escapeByte_length b)
  | _ => simp

/-- Unquoting one piece gives the bytes it stands for. -/
theorem unquoteLoop_chunk (chunk dec : Str) (h : Chunk chunk dec) (f : Nat) (xs : Str) :
    unquoteLoop (f + 1) (chunk ++ xs) = (unquoteLoop f xs).map (dec ++ ·) := by
  cases h with
  | plain b hs =>
    obtain ⟨p1, p2, p3, p4⟩ := htmlSafe_plain b hs
    exact unquoteLoop_ascii f b xs p1 p2 p3 p4
  | escape b hb hs => exact unquoteLoop_escapeByte f b xs hb hs
  | invalid => exact unquoteLoop_fffd f xs
  | separator n hn => exact unquoteLoop_u202 f n xs hn
  | two b b1 q0 q1 q2 q3 =>
    have hb : 0x80 ≤ b := Nat.le_trans (by decide) q0
    rw [List.cons_append, unquoteLoop_rune f b _ hb, List.cons_append,
      decodeRune_two b b1 _ q0 q1 q2 q3, appendRune_two b b1 q0 q1 q2 q3]
    rfl
  | three b b1 b2 q0 q1 q2 q3 q4 q5 q6 q7 =>
    have hb : 0x80 ≤ b := Nat.le_trans (by decide) q0
    rw [List.cons_append, unquoteLoop_rune f b _ hb, List.cons_append, List.cons_append,
      decodeRune_three b b1 b2 _ q0 q1 q2 q3 q4 q5 q6 q7,
      appendRune_three b b1 b2 q0 q1 q2 q3 q4 q5 q6 q7]
    rfl
  | four b b1 b2 b3 q0 q1 q2 q3 q4 q5 q6 q7 q8 q9 =>
    have hb : 0x80 ≤ b := Nat.le_trans (by decide) q0
    rw [List.cons_append, unquoteLoop_rune f b _ hb, List.cons_append, List.cons_append,
      List.cons_append, decodeRune_four b b1 b2 b3 _ q0 q1 q2 q3 q4 q5 q6 q7 q8 q9,
      appendRune_four b b1 b2 b3 q0 q1 q2 q3 q4 q5 q6 q7 q8 q9]
    rfl

theorem fuel_split (a c f : Nat) (h : c + a ≤ f) (hc : 1 ≤ c) : ∃ f1, f = f1 + 1 ∧ a ≤ f1 :=
  ⟨f - 1, by omega, by omega⟩

/-- Unquoting what the encoder wrote between the quotes gives the source
string with every invalid byte replaced by U+FFFD. -/
theorem unquoteLoop_appendStringLoop (fuel : Nat) :
    ∀ (src : Str) (f : Nat), src.length ≤ fuel → (appendStringLoop fuel src).length ≤ f →
      unquoteLoop f (appendStringLoop fuel src) = some (coerceLoop fuel src) := by
  induction fuel with
  | zero =>
    intro src f hs _
    have : src = [] := List.length_eq_zero.mp (Nat.le_zero.mp hs)
    subst this
    cases f <;> rfl
  | succ fuel ih =>
    intro src f hs hlen
    cases src with
    | nil => cases f <;> rfl
    | cons b rest =>
      obtain ⟨chunk, dec, tail, hc, htail, henc, hco⟩ := appendStringLoop_step fuel b rest
      rw [henc] at hlen ⊢
      rw [hco]
      rw [List.length_append] at hlen
      obtain ⟨f1, rfl, hf1⟩ := fuel_split _ _ _ hlen (chunk_length_pos _ _ hc)
      have hrest : rest.length ≤ fuel := Nat.le_of_succ_le_succ hs
      rw [unquoteLoop_chunk chunk dec hc, ih tail f1 (Nat.le_trans htail hrest) hf1]
      rfl

/-! ## The stream reader -/

theorem readValue_cons (s : Scanner) (k : Collector) (n c : Nat) (rest : Str) :
    readValue s k (n + 1) (c :: rest) =
      match (s.next c).2 with
      | .scanEnd => .ok k
      | .scanError => .error .badSyntax
      | .endObject | .endArray =>
        if (stateEndValue (s.next c).1 0x20).2 = .scanEnd then
          .ok (k.collect s.parseState c (s.next c).2)
        else readValue (s.next c).1 (k.collect s.parseState c (s.next c).2) n rest
      | _ => readValue (s.next c).1 (k.collect s.parseState c (s.next c).2) n rest := by
  rw [readValue]

theorem readValue_append (pre rest : Str) :
    ∀ (s : Scanner) (k : Collector) (s1 : Scanner) (k1 : Collector) (n : Nat),
      scanThrough s k pre = some (s1, k1) →
      readValue s k (pre.length + n) (pre ++ rest) = readValue s1 k1 n rest := by
  induction pre with
  | nil =>
    intro s k s1 k1 n h
    simp only [scanThrough, Option.some.injEq, Prod.mk.injEq] at h
    obtain ⟨rfl, rfl⟩ := h
    simp
  | cons c pre ih =>
    intro s k s1 k1 n h
    have hlen : (c :: pre).length + n = (pre.length + n) + 1 := by
      simp only [List.length_cons]; omega
    rw [hlen, List.cons_append, readValue_cons]
    unfold scanThrough at h
    split at h
    · exact absurd h (by simp)
    · exact absurd h (by simp)
    · rename_i hop
      split at h
      · exact absurd h (by simp)
      · rename_i hne
        rw [if_neg hne]
        exact ih _ _ _ _ _ h
    · rename_i hop
      split at h
      · exact absurd h (by simp)
      · rename_i hne
        rw [if_neg hne]
        exact ih _ _ _ _ _ h
    · rename_i h1 h2 h3 h4
      exact ih (s.next c).1 (k.collect s.parseState c (s.next c).2) s1 k1 n h

theorem readValue_take (body : Str) :
    ∀ (s : Scanner) (k : Collector) (n : Nat) (out : Collector),
      readValue s k n body = .ok out → readValue s k n (body.take n) = .ok out := by
  induction body with
  | nil =>
    intro s k n out h
    simpa using h
  | cons c rest ih =>
    intro s k n out h
    cases n with
    | zero => simp [readValue] at h
    | succ n =>
      rw [List.take_succ_cons, readValue_cons]
      rw [readValue_cons] at h
      generalize s.next c = r at h ⊢
      obtain ⟨s1, op⟩ := r
      cases op <;> dsimp only at h ⊢ <;>
        first
        | exact h
        | exact ih _ _ _ _ h
        | (split_ifs at h ⊢
           · exact h
           · exact ih _ _ _ _ h)

theorem decodeRequestBody_take (limit : Nat) (body : Str) (req : RequestBody)
    (h : decodeRequestBody limit body = .ok req) :
    decodeRequestBody limit (body.take limit) = .ok req := by
  unfold decodeRequestBody at h ⊢
  cases hr : readValue Scanner.reset Collector.init limit body with
  | error e => simp [hr] at h
  | ok k =>
    rw [hr] at h
    rw [readValue_take body _ _ _ _ hr]
    exact h

theorem decodeRequestBody_error (limit : Nat) (body : Str) (e : DecodeError)
    (h : readValue Scanner.reset Collector.init limit body = .error e) :
    decodeRequestBody limit body = .error e := by
  unfold decodeRequestBody
  rw [h]

theorem collect_continue_top (k : Collector) (ps : List ParseState) (c : Nat) :
    (k.collect ps c .continue).top = k.top := by
  unfold Collector.collect
  dsimp only
  split
  · rfl
  · rfl
  · split <;> rfl

theorem readValue_unterminated (n : Nat) :
    ∀ (s : Scanner) (k : Collector), s.step = .inString → k.top.isSome = true →
      readValue s k n (List.replicate n 0x61) = .error .unexpectedEOF := by
  induction n with
  | zero =>
    intro s k hs hk
    simp [readValue, Scanner.next, hs, hk]
  | succ n ih =>
    intro s k hs hk
    have hn : s.next 0x61 = (s, .continue) := by simp [Scanner.next, hs]
    rw [List.replicate_succ, readValue_cons, hn]
    exact ih s _ hs (by rw [collect_continue_top]; exact hk)

theorem scanThrough_cons (s : Scanner) (k : Collector) (c : Nat) (rest : Str) :
    scanThrough s k (c :: rest) =
      match (s.next c).2 with
      | .scanEnd => none
      | .scanError => none
      | .endObject | .endArray =>
        if (stateEndValue (s.next c).1 0x20).2 = .scanEnd then none
        else scanThrough (s.next c).1 (k.collect s.parseState c (s.next c).2) rest
      | _ => scanThrough (s.next c).1 (k.collect s.parseState c (s.next c).2) rest := rfl

/-- One byte inside a string literal that is the value of a top-level member. -/
theorem scanThrough_continue (s s1 : Scanner) (top : Option TopKind)
    (ms : List (Str × MemberValue)) (key raw : Str) (c : Nat) (xs : Str)
    (h : s.next c = (s1, .continue)) :
    scanThrough s ⟨top, ms, key, .str raw, .stringValue⟩ (c :: xs) =
      scanThrough s1 ⟨top, ms, key, .str (raw ++ [c]), .stringValue⟩ xs := by
  rw [scanThrough_cons, h]
  rfl

theorem next_inString_plain (st : List ParseState) (c : Nat) (h1 : c ≠ 0x22) (h2 : c ≠ 0x5C)
    (h3 : 0x20 ≤ c) :
    Scanner.next ⟨.inString, st⟩ c = (⟨.inString, st⟩, .continue) := by
  have e : ¬ c < 0x20 := by omega
  simp [Scanner.next, h1, h2, e]

theorem scanThrough_plain (st : List ParseState) (top : Option TopKind)
    (ms : List (Str × MemberValue)) (key : Str) (ys : Str) :
    ∀ (raw xs : Str), (∀ c ∈ ys, c ≠ 0x22 ∧ c ≠ 0x5C ∧ 0x20 ≤ c) →
      scanThrough ⟨.inString, st⟩ ⟨top, ms, key, .str raw, .stringValue⟩ (ys ++ xs) =
        scanThrough ⟨.inString, st⟩ ⟨top, ms, key, .str (raw ++ ys), .stringValue⟩ xs := by
  induction ys with
  | nil => intro raw xs _; simp
  | cons c ys ih =>
    intro raw xs h
    have hc := h c (List.mem_cons_self _ _)
    rw [List.cons_append, scanThrough_continue _ _ _ _ _ _ _ _
      (next_inString_plain st c hc.1 hc.2.1 hc.2.2),
      ih _ _ (fun d hd => h d (List.mem_cons_of_mem _ hd))]
    simp

theorem isHex_hexDigit (n : Nat) (h : n < 16) : isHex (hexDigit n) = true := by
  revert n; decide

theorem scanThrough_escapeU (st : List ParseState) (top : Option TopKind)
    (ms : List (Str × MemberValue)) (key raw xs : Str) (a b c d : Nat)
    (ha : isHex a = true) (hb : isHex b = true) (hc : isHex c = true) (hd : isHex d = true) :
    scanThrough ⟨.inString, st⟩ ⟨top, ms, key, .str raw, .stringValue⟩
        ([0x5C, 0x75, a, b, c, d] ++ xs) =
      scanThrough ⟨.inString, st⟩
        ⟨top, ms, key, .str (raw ++ [0x5C, 0x75, a, b, c, d]), .stringValue⟩ xs := by
  have n1 : Scanner.next ⟨.inString, st⟩ 0x5C = (⟨.inStringEsc, st⟩, .continue) := rfl
  have n2 : Scanner.next ⟨.inStringEsc, st⟩ 0x75 = (⟨.inStringEscU, st⟩, .continue) := rfl
  have n3 : Scanner.next ⟨.inStringEscU, st⟩ a = (⟨.inStringEscU1, st⟩, .continue) := by
    simp [Scanner.next, ha]
  have n4 : Scanner.next ⟨.inStringEscU1, st⟩ b = (⟨.inStringEscU12, st⟩, .continue) := by
    simp [Scanner.next, hb]
  have n5 : Scanner.next ⟨.inStringEscU12, st⟩ c = (⟨.inStringEscU123, st⟩, .continue) := by
    simp [Scanner.next, hc]
  have n6 : Scanner.next ⟨.inStringEscU123, st⟩ d = (⟨.inString, st⟩, .continue) := by
    simp [Scanner.next, hd]
  simp only [List.cons_append, List.nil_append]
  rw [scanThrough_continue _ _ _ _ _ _ _ _ n1, scanThrough_continue _ _ _ _ _ _ _ _ n2,
    scanThrough_continue _ _ _ _ _ _ _ _ n3, scanThrough_continue _ _ _ _ _ _ _ _ n4,
    scanThrough_continue _ _ _ _ _ _ _ _ n5, scanThrough_continue _ _ _ _ _ _ _ _ n6]
  simp

theorem scanThrough_escape2 (st : List ParseState) (top : Option TopKind)
    (ms : List (Str × MemberValue)) (key raw xs : Str) (e : Nat)
    (he : e = 0x62 ∨ e = 0x66 ∨ e = 0x6E ∨ e = 0x72 ∨ e = 0x74 ∨ e = 0x5C ∨ e = 0x2F ∨ e = 0x22) :
    scanThrough ⟨.inString, st⟩ ⟨top, ms, key, .str raw, .stringValue⟩ ([0x5C, e] ++ xs) =
      scanThrough ⟨.inString, st⟩ ⟨top, ms, key, .str (raw ++ [0x5C, e]), .stringValue⟩ xs := by
  have n1 : Scanner.next ⟨.inString, st⟩ 0x5C = (⟨.inStringEsc, st⟩, .continue) := rfl
  have n2 : Scanner.next ⟨.inStringEsc, st⟩ e = (⟨.inString, st⟩, .continue) := by
    simp [Scanner.next, he]
  simp only [List.cons_append, List.nil_append]
  rw [scanThrough_continue _ _ _ _ _ _ _ _ n1, scanThrough_continue _ _ _ _ _ _ _ _ n2]
  simp

theorem scanThrough_escapeByte (st : List ParseState) (top : Option TopKind)
    (ms : List (Str × MemberValue)) (key raw xs : Str) (b : Nat) (hb : b < 0x80) :
    scanThrough ⟨.inString, st⟩ ⟨top, ms, key, .str raw, .stringValue⟩ (escapeByte b ++ xs) =
      scanThrough ⟨.inString, st⟩ ⟨top, ms, key, .str (raw ++ escapeByte b), .stringValue⟩ xs := by
  unfold escapeByte
  split_ifs with c1 c2 c3 c4 c5 c6
  · exact scanThrough_escape2 _ _ _ _ _ _ _ (by omega)
  · exact scanThrough_escape2 _ _ _ _ _ _ _ (by omega)
  · exact scanThrough_escape2 _ _ _ _ _ _ _ (by omega)
  · exact scanThrough_escape2 _ _ _ _ _ _ _ (by omega)
  · exact scanThrough_escape2 _ _ _ _ _ _ _ (by omega)
  · exact scanThrough_escape2 _ _ _ _ _ _ _ (by omega)
  · exact scanThrough_escapeU _ _ _ _ _ _ _ _ _ _ (by decide) (by decide)
      (isHex_hexDigit _ (by omega)) (isHex_hexDigit _ (by omega))

/-- The scanner stays inside the string literal over one piece written by
the encoder, and the collector records its bytes. -/
theorem scanThrough_chunk (chunk dec : Str) (h : Chunk chunk dec) (st : List ParseState)
    (top : Option TopKind) (ms : List (Str × MemberValue)) (key raw xs : Str) :
    scanThrough ⟨.inString, st⟩ ⟨top, ms, key, .str raw, .stringValue⟩ (chunk ++ xs) =
      scanThrough ⟨.inString, st⟩ ⟨top, ms, key, .str (raw ++ chunk), .stringValue⟩ xs := by
  cases h with
  | plain b hs =>
    obtain ⟨p1, p2, p3, _⟩ := htmlSafe_plain b hs
    exact scanThrough_plain st top ms key [b] raw xs (by simpa using ⟨p2, p1, p3⟩)
  | escape b hb hs => exact scanThrough_escapeByte _ _ _ _ _ _ _ hb
  | invalid =>
    exact scanThrough_escapeU _ _ _ _ _ _ _ _ _ _ (by decide) (by decide) (by decide)
      (by decide)
  | separator n hn =>
    exact scanThrough_escapeU _ _ _ _ _ _ _ _ _ _ (by decide) (by decide) (by decide)
      (isHex_hexDigit n (by omega))
  | two b b1 q0 q1 q2 q3 =>
    refine scanThrough_plain st top ms key [b, b1] raw xs ?_
    intro c hc
    simp only [List.mem_cons, List.mem_singleton, List.not_mem_nil, or_false] at hc
    rcases hc with rfl | rfl <;> omega
  | three b b1 b2 q0 q1 q2 q3 q4 q5 q6 q7 =>
    refine scanThrough_plain st top ms key [b, b1, b2] raw xs ?_
    intro c hc
    simp only [List.mem_cons, List.mem_singleton, List.not_mem_nil, or_false] at hc
    clear q4 q5
    rcases hc with rfl | rfl | rfl <;> omega
  | four b b1 b2 b3 q0 q1 q2 q3 q4 q5 q6 q7 q8 q9 =>
    refine scanThrough_plain st top ms key [b, b1, b2, b3] raw xs ?_
    intro c hc
    simp only [List.mem_cons, List.mem_singleton, List.not_mem_nil, or_false] at hc
    clear q4 q5
    rcases hc with rfl | rfl | rfl | rfl <;> omega

/-- The scanner stays inside the string literal over everything the encoder
writes between the quotes, and the collector records these bytes. -/
theorem scanThrough_appendStringLoop (st : List ParseState) (top : Option TopKind)
    (ms : List (Str × MemberValue)) (key : Str) (fuel : Nat) :
    ∀ (src raw xs : Str),
      scanThrough ⟨.inString, st⟩ ⟨top, ms, key, .str raw, .stringValue⟩
          (appendStringLoop fuel src ++ xs) =
        scanThrough ⟨.inString, st⟩
          ⟨top, ms, key, .str (raw ++ appendStringLoop fuel src), .stringValue⟩ xs := by
  induction fuel with
  | zero =>
    intro src raw xs
    cases src <;> simp [appendStringLoop]
  | succ fuel ih =>
    intro src raw xs
    cases src with
    | nil => simp [appendStringLoop]
    | cons b rest =>
      obtain ⟨chunk, dec, tail, hc, _, henc, _⟩ := appendStringLoop_step fuel b rest
      rw [henc, List.append_assoc, scanThrough_chunk chunk dec hc, ih, List.append_assoc]

theorem validLoop_cons (fuel b : Nat) (rest : Str) :
    validLoop (fuel + 1) (b :: rest) =
      if b < 0x80 then validLoop fuel rest
      else if (decodeRune (b :: rest)).2 = 1 then false
      else validLoop fuel (rest.drop ((decodeRune (b :: rest)).2 - 1)) := rfl

/-- Valid UTF-8 is left unchanged by the coercion. -/
theorem coerceLoop_of_valid (fuel : Nat) :
    ∀ src : Str, validLoop fuel src = true → coerceLoop fuel src = src := by
  induction fuel with
  | zero =>
    intro src h
    cases src with
    | nil => rfl
    | cons b rest => simp [validLoop] at h
  | succ fuel ih =>
    intro src h
    cases src with
    | nil => rfl
    | cons b rest =>
      rw [validLoop_cons] at h
      rw [coerceLoop_cons]
      by_cases hb : b < 0x80
      · simp only [hb, if_true] at h ⊢
        rw [ih rest h]
      · simp only [hb, if_false] at h ⊢
        rcases decodeRune_cases b rest (by omega) with hd | ⟨b1, tl, rfl, q0, q1, q2, q3⟩ |
          ⟨b1, b2, tl, rfl, q0, q1, q2, q3, q4, q5, q6, q7⟩ |
          ⟨b1, b2, b3, tl, rfl, q0, q1, q2, q3, q4, q5, q6, q7, q8, q9⟩
        · simp [hd] at h
        · rw [decodeRune_two b b1 tl q0 q1 q2 q3] at h ⊢
          simp only [OfNat.ofNat_ne_one, if_false, Nat.add_one_sub_one, List.drop_succ_cons,
            List.drop_zero] at h
          simp [ih tl h]
        · rw [decodeRune_three b b1 b2 tl q0 q1 q2 q3 q4 q5 q6 q7] at h ⊢
          simp only [OfNat.ofNat_ne_one, if_false, show (3 : Nat) - 1 = 2 from rfl,
            List.drop_succ_cons, List.drop_zero] at h
          simp [ih tl h]
        · rw [decodeRune_four b b1 b2 b3 tl q0 q1 q2 q3 q4 q5 q6 q7 q8 q9] at h ⊢
          simp only [OfNat.ofNat_ne_one, if_false, show (4 : Nat) - 1 = 3 from rfl,
            List.drop_succ_cons, List.drop_zero] at h
          simp [ih tl h]

theorem coerceUTF8_of_valid (src : Str) (h : validUTF8 src = true) : coerceUTF8 src = src :=
  coerceLoop_of_valid _ _ h

theorem unquoteBytes_quoted (xs : Str) :
    unquoteBytes ([0x22] ++ xs ++ [0x22]) = unquoteLoop xs.length xs := by
  simp [unquoteBytes]

theorem unquoteBytes_appendString (src : Str) :
    unquoteBytes (appendString src) = some (coerceUTF8 src) := by
  rw [appendString, unquoteBytes_quoted]
  exact unquoteLoop_appendStringLoop _ _ _ (Nat.le_refl _) (Nat.le_refl _)

theorem scanThrough_append (pre : Str) :
    ∀ (s : Scanner) (k : Collector) (s1 : Scanner) (k1 : Collector) (rest : Str),
      scanThrough s k pre = some (s1, k1) →
      scanThrough s k (pre ++ rest) = scanThrough s1 k1 rest := by
  induction pre with
  | nil =>
    intro s k s1 k1 rest h
    simp only [scanThrough, Option.some.injEq, Prod.mk.injEq] at h
    obtain ⟨rfl, rfl⟩ := h
    rfl
  | cons c pre ih =>
    intro s k s1 k1 rest h
    rw [List.cons_append, scanThrough_cons]
    rw [scanThrough_cons] at h
    generalize s.next c = r at h ⊢
    obtain ⟨s2, op⟩ := r
    cases op <;> dsimp only at h ⊢ <;>
      first
      | exact Option.noConfusion h
      | exact ih _ _ _ _ _ h
      | (by_cases hc : (stateEndValue s2 0x20).2 = Op.scanEnd
         · rw [if_pos hc] at h
           exact Option.noConfusion h
         · rw [if_neg hc] at h ⊢
           exact ih _ _ _ _ _ h)

/-- Reading back a one-member object written by the encoder, given the walk
over the opening brace, the key and the opening quote of the value. -/
theorem decodeObject_of_prefix (pre rawKey key value : Str)
    (hpre : scanThrough Scanner.reset Collector.init pre =
      some (⟨.inString, [.objectValue]⟩, ⟨some .object, [], rawKey, .str [0x22], .stringValue⟩))
    (hkey : unquoteBytes rawKey = some key) :
    decodeObject (pre ++ appendStringLoop value.length value ++ [0x22, 0x7D, 0x0A]) =
      some [(key, .str (coerceUTF8 value))] := by
  have hscan : scanThrough Scanner.reset Collector.init
      (pre ++ appendStringLoop value.length value) =
      some (⟨.inString, [.objectValue]⟩,
        ⟨some .object, [], rawKey, .str ([0x22] ++ appendStringLoop value.length value),
          .stringValue⟩) := by
    rw [scanThrough_append pre _ _ _ _ _ hpre]
    have := scanThrough_appendStringLoop [.objectValue] (some .object) [] rawKey value.length
      value [0x22] []
    simpa [scanThrough] using this
  have hlen : (pre ++ appendStringLoop value.length value ++ [0x22, 0x7D, 0x0A]).length =
      (pre ++ appendStringLoop value.length value).length + 3 := by
    simp only [List.length_append, List.length_cons, List.length_nil]
  have hread := readValue_append (pre ++ appendStringLoop value.length value) [0x22, 0x7D, 0x0A]
    _ _ _ _ 3 hscan
  have hq := unquoteBytes_appendString value
  rw [appendString] at hq
  simp only [List.cons_append, List.nil_append, List.singleton_append] at hq
  unfold decodeObject
  rw [hlen, hread]
  simp [readValue_cons, Scanner.next, stateEndValue, stateEndTop, isSpace, Collector.collect,
    decodeMembers, decodeMember, hkey, hq]

theorem encodeSingletonMap_eq (field value quoted : Str) (hq : appendString field = quoted) :
    encodeSingletonMap field value =
      ([0x7B] ++ quoted ++ [0x3A, 0x22]) ++ appendStringLoop value.length value
        ++ [0x22, 0x7D, 0x0A] := by
  subst hq
  simp [encodeSingletonMap, appendString]

theorem decodeObject_jsonResultsObj (value : Str) :
    decodeObject (encodeSingletonMap (lit "jsonResultsObj") value) =
      some [(lit "jsonResultsObj", .str (coerceUTF8 value))] := by
  rw [encodeSingletonMap_eq _ _ (lit "\"jsonResultsObj\"") (by decide)]
  exact decodeObject_of_prefix _ (lit "\"jsonResultsObj\"") _ value (by decide) (by decide)

theorem decodeObject_base64ResultsObj (value : Str) :
    decodeObject (encodeSingletonMap (lit "base64ResultsObj") value) =
      some [(lit "base64ResultsObj", .str (coerceUTF8 value))] := by
  rw [encodeSingletonMap_eq _ _ (lit "\"base64ResultsObj\"") (by decide)]
  exact decodeObject_of_prefix _ (lit "\"base64ResultsObj\"") _ value (by decide) (by decide)

/-! ## C1: one command, at most one process -/

theorem run_spawned_le_one (world : World) (hdr : List (Str × Str)) (r : Request)
    (script field : Str) :
    (runScriptReturningJSONField world (State.start hdr) r script field).spawned.length ≤ 1 ∧
      (runScriptReturningJSONField world (State.start hdr) r script field).commands.length
        ≤ 1 := by
  unfold runScriptReturningJSONField
  split
  · simp [State.spawned, State.commands, State.start]
  · split
    · simp [State.spawned, State.commands, State.start]
    · split
      · simp [State.spawned, State.commands, State.start]
      · dsimp only
        split <;> split <;> simp [State.spawned, State.commands, State.start]

theorem combinedOutput_nul (world : World) (path : Str) (args : List Str)
    (h : args.any hasNul = true) : (combinedOutput world path args).started = false := by
  simp only [combinedOutput, List.any_cons, h, Bool.or_true, if_true]
  rfl

/-- C1 as stated fails: the body `{"database":"a\u0000b","base64value":"x"}` is
a POST body that decodes as an envelope (its `database` holds a NUL byte) and
the working directory resolves, yet no process is started: `os/exec` refuses
the argument before `fork`, and the handler answers 500. -/
theorem C1_counterexample :
    decodeRequestBody maxBodyBytes nulBody = .ok ⟨[0x61, 0, 0x62], [0x78]⟩ ∧
      echoWorld.getwd = .ok (lit "/srv/api") ∧
      (ScriptRoute.base64nonquery.handler echoWorld (State.start [])
        ⟨MethodPost, nulBody⟩).spawned = [] ∧
      (ScriptRoute.base64nonquery.handler echoWorld (State.start [])
        ⟨MethodPost, nulBody⟩).w.status = some 500 := by
  refine ⟨?_, rfl, ?_, ?_⟩ <;> decide

/-- C1, amended: on each of the three script-backed routes the handler calls
`CombinedOutput` at most once and starts at most one process. When the method
is POST, the body decodes as a request envelope and the working directory
resolves, it calls `CombinedOutput` exactly once, on the command whose
executable path is the working directory joined with the route's script name
and whose arguments are the decoded `database` and `base64value`, in that
order, under the 30 second bound; exactly one process, with that path and
those arguments, is started when the start succeeds, and none when it fails,
as it does whenever one of the two decoded fields contains a NUL byte. -/
theorem C1_one_command_at_most_one_process (world : World) (route : ScriptRoute)
    (hdr : List (Str × Str)) (r : Request) :
    (route.handler world (State.start hdr) r).spawned.length ≤ 1 ∧
      (route.handler world (State.start hdr) r).commands.length ≤ 1 ∧
      ∀ (req : RequestBody) (wd : Str), r.method = MethodPost →
        decodeRequestBody maxBodyBytes r.body = .ok req → world.getwd = .ok wd →
        (route.handler world (State.start hdr) r).commands =
          [(filepathJoin wd route.scriptName, [req.Database, req.Base64Value], 30)] ∧
        ((combinedOutput world (filepathJoin wd route.scriptName)
            [req.Database, req.Base64Value]).started = true →
          (route.handler world (State.start hdr) r).spawned =
            [(filepathJoin wd route.scriptName, [req.Database, req.Base64Value])]) ∧
        ((combinedOutput world (filepathJoin wd route.scriptName)
            [req.Database, req.Base64Value]).started = false →
          (route.handler world (State.start hdr) r).spawned = []) ∧
        ((hasNul req.Database = true ∨ hasNul req.Base64Value = true) →
          (route.handler world (State.start hdr) r).spawned = []) := by
  rw [handler_eq]
  refine ⟨(run_spawned_le_one _ _ _ _ _).1, (run_spawned_le_one _ _ _ _ _).2, ?_⟩
  intro req wd h hd hw
  have key : ∀ b : Bool,
      (combinedOutput world (filepathJoin wd route.scriptName)
        [req.Database, req.Base64Value]).started = b →
      (runScriptReturningJSONField world (State.start hdr) r route.scriptName
        route.responseField).commands =
          [(filepathJoin wd route.scriptName, [req.Database, req.Base64Value], 30)] ∧
      (runScriptReturningJSONField world (State.start hdr) r route.scriptName
        route.responseField).spawned =
          if b then [(filepathJoin wd route.scriptName, [req.Database, req.Base64Value])]
          else [] := by
    intro b hb
    rw [run_called world _ r _ _ req wd h hd hw, hb]
    cases b <;> split <;>
      simp [State.spawned, State.commands, State.start, scriptTimeout]
  refine ⟨(key _ rfl).1, fun hs => ?_, fun hs => ?_, fun hn => ?_⟩
  · simpa using (key true hs).2
  · simpa using (key false hs).2
  · have hs : (combinedOutput world (filepathJoin wd route.scriptName)
        [req.Database, req.Base64Value]).started = false :=
      combinedOutput_nul _ _ _ (by
        rcases hn with hn | hn <;> simp [hn])
    simpa using (key false hs).2

/-- C1, amended, at the sample request on `/base64nonquery` (one command, one
process) and at the body with a NUL byte (one command, no process). -/
theorem C1_witness :
    (ScriptRoute.base64nonquery.handler echoWorld (State.start []) samplePost).spawned =
        [(lit "/srv/api/base64_non_query.sh", [lit "mydb", lit "aGVsbG8="])] ∧
      (ScriptRoute.base64nonquery.handler echoWorld (State.start [])
        ⟨MethodPost, nulBody⟩).commands =
        [(lit "/srv/api/base64_non_query.sh", [[0x61, 0, 0x62], [0x78]], 30)] ∧
      (ScriptRoute.base64nonquery.handler echoWorld (State.start [])
        ⟨MethodPost, nulBody⟩).spawned = [] :=
  ⟨((C1_one_command_at_most_one_process echoWorld .base64nonquery [] samplePost).2.2
      ⟨lit "mydb", lit "aGVsbG8="⟩ (lit "/srv/api") (by decide) (by decide) rfl).2.1
      (by decide),
   ((C1_one_command_at_most_one_process echoWorld .base64nonquery [] ⟨MethodPost, nulBody⟩).2.2
      ⟨[0x61, 0, 0x62], [0x78]⟩ (lit "/srv/api") (by decide) (by decide) rfl).1,
   ((C1_one_command_at_most_one_process echoWorld .base64nonquery [] ⟨MethodPost, nulBody⟩).2.2
      ⟨[0x61, 0, 0x62], [0x78]⟩ (lit "/srv/api") (by decide) (by decide) rfl).2.2.2
      (Or.inl (by decide))⟩

/-! ## C2: the response of a successful run -/

theorem run_ok_response (hdr : List (Str × Str)) (field out : Str) :
    ((⟨hdr, none, []⟩ : ResponseWriter).Set (lit "Content-Type") (lit "application/json")).Write
        (encodeSingletonMap field out) =
      ⟨setField (lit "Content-Type") (lit "application/json") hdr, some 200,
        encodeSingletonMap field out⟩ := by
  simp [ResponseWriter.Set, ResponseWriter.Write, ResponseWriter.WriteHeader,
    bodyAllowedForStatus]

theorem decodeObject_responseField (route : ScriptRoute) (out : Str) :
    decodeObject (encodeSingletonMap route.responseField out) =
      some [(if route.pattern = lit "/base64querypostbase64return" then lit "base64ResultsObj"
        else lit "jsonResultsObj", .str (coerceUTF8 out))] := by
  cases route
  · rw [if_pos (by decide)]
    exact decodeObject_base64ResultsObj out
  · rw [if_neg (by decide)]
    exact decodeObject_jsonResultsObj out
  · rw [if_neg (by decide)]
    exact decodeObject_jsonResultsObj out

/-- C2 as stated fails: when the script writes the single byte `0xFF` (not
valid UTF-8) and succeeds, the response is a JSON object whose one field
decodes to U+FFFD (`EF BF BD`), not to the captured output. -/
theorem C2_counterexample :
    combinedOutput binaryWorld (lit "/srv/api/base64_query_json_return.sh")
        [lit "mydb", lit "aGVsbG8="] = .finished [0xFF] none ∧
      (ScriptRoute.base64postjsonreturn.handler binaryWorld (State.start [])
        samplePost).w.status = some 200 ∧
      decodeObject (ScriptRoute.base64postjsonreturn.handler binaryWorld (State.start [])
        samplePost).w.body = some [(lit "jsonResultsObj", .str [0xEF, 0xBF, 0xBD])] ∧
      decodeObject (ScriptRoute.base64postjsonreturn.handler binaryWorld (State.start [])
        samplePost).w.body ≠ some [(lit "jsonResultsObj", .str [0xFF])] := by
  refine ⟨?_, ?_, ?_, ?_⟩ <;> decide

/-- C2, amended: after a successful script run on a script-backed POST route
the response has status 200 and `Content-Type: application/json`, and its body
is a JSON object with exactly one field, named `base64ResultsObj` on
`/base64querypostbase64return` and `jsonResultsObj` on the other two routes,
whose string value is the captured output with every byte that is not part of
a well-formed UTF-8 sequence replaced by U+FFFD; for every captured output
that is valid UTF-8, decoding the body gives back exactly the captured
output. -/
theorem C2_success_body_relays_output (world : World) (route : ScriptRoute)
    (hdr : List (Str × Str)) (r : Request) (req : RequestBody) (wd out : Str)
    (h : r.method = MethodPost) (hd : decodeRequestBody maxBodyBytes r.body = .ok req)
    (hw : world.getwd = .ok wd)
    (hr : combinedOutput world (filepathJoin wd route.scriptName) [req.Database, req.Base64Value]
      = .finished out none) :
    (route.handler world (State.start hdr) r).w.status = some 200 ∧
      (route.handler world (State.start hdr) r).w.Get (lit "Content-Type")
        = some (lit "application/json") ∧
      decodeObject (route.handler world (State.start hdr) r).w.body =
        some [(if route.pattern = lit "/base64querypostbase64return" then lit "base64ResultsObj"
          else lit "jsonResultsObj", .str (coerceUTF8 out))] ∧
      (validUTF8 out = true →
        decodeObject (route.handler world (State.start hdr) r).w.body =
          some [(if route.pattern = lit "/base64querypostbase64return"
            then lit "base64ResultsObj" else lit "jsonResultsObj", .str out)]) := by
  rw [handler_eq, run_script_ok _ _ _ _ _ req wd out h hd hw hr,
    show (State.start hdr).w = ⟨hdr, none, []⟩ from rfl, run_ok_response]
  refine ⟨rfl, setField_lookup_self _ _ _, decodeObject_responseField route out, ?_⟩
  intro hv
  have := decodeObject_responseField route out
  rw [coerceUTF8_of_valid out hv] at this
  exact this

/-- C2, amended, at the scenario of the interface description: the script
echoes its arguments on `/base64querypostbase64return`. -/
theorem C2_witness :
    (ScriptRoute.base64querypostbase64return.handler echoWorld (State.start [])
        samplePost).w.body = lit "\x7b\"base64ResultsObj\":\"mydb aGVsbG8=\\n\"\x7d\n" ∧
      decodeObject (ScriptRoute.base64querypostbase64return.handler echoWorld (State.start [])
        samplePost).w.body = some [(lit "base64ResultsObj", .str (lit "mydb aGVsbG8=\n"))] :=
  ⟨by decide,
   (C2_success_body_relays_output echoWorld .base64querypostbase64return [] samplePost
      ⟨lit "mydb", lit "aGVsbG8="⟩ (lit "/srv/api") (lit "mydb aGVsbG8=\n") (by decide)
      (by decide) rfl (by decide)).2.2.2 (by decide)⟩

/-! ## C3: a failing script -/

/-- C3: when the script invocation fails (the command cannot be started, or
the process ends with an error), the response has status 500 and its body is
`Error: ` followed by the text of the error; it is the same response for any
two runs that fail with the same error, whatever output each one captured,
while the captured output is written to the server log. -/
theorem C3_failure_response_ignores_output (w1 w2 : World) (route : ScriptRoute)
    (hdr : List (Str × Str)) (r : Request) (req : RequestBody) (wd err out1 out2 : Str)
    (h : r.method = MethodPost) (hd : decodeRequestBody maxBodyBytes r.body = .ok req)
    (hw1 : w1.getwd = .ok wd) (hw2 : w2.getwd = .ok wd)
    (he1 : (combinedOutput w1 (filepathJoin wd route.scriptName)
      [req.Database, req.Base64Value]).err = some err)
    (ho1 : (combinedOutput w1 (filepathJoin wd route.scriptName)
      [req.Database, req.Base64Value]).output = out1)
    (he2 : (combinedOutput w2 (filepathJoin wd route.scriptName)
      [req.Database, req.Base64Value]).err = some err)
    (ho2 : (combinedOutput w2 (filepathJoin wd route.scriptName)
      [req.Database, req.Base64Value]).output = out2) :
    (route.handler w1 (State.start hdr) r).w.status = some 500 ∧
      (route.handler w1 (State.start hdr) r).w.body = lit "Error: " ++ err ++ [0x0A] ∧
      (route.handler w1 (State.start hdr) r).w = (route.handler w2 (State.start hdr) r).w ∧
      ∃ line ∈ (route.handler w1 (State.start hdr) r).logged, out1 <:+: line := by
  have r1 := run_script_failed w1 (State.start hdr) r route.scriptName route.responseField
    req wd out1 err h hd hw1 he1 ho1
  have r2 := run_script_failed w2 (State.start hdr) r route.scriptName route.responseField
    req wd out2 err h hd hw2 he2 ho2
  rw [handler_eq, handler_eq, r1.1, r2.1]
  refine ⟨httpError_status _ _ _, ?_, rfl, ?_⟩
  · rw [show (State.start hdr).w = ⟨hdr, none, []⟩ from rfl, httpError_body _ _ _ (by decide)]
  · refine ⟨lit "Script failed (" ++ route.scriptName ++ lit "): " ++ err ++ lit "; output="
      ++ out1, ?_, ?_⟩
    · rw [r1.2]
      exact List.mem_append_right _ (List.mem_singleton.mpr rfl)
    · exact (List.suffix_append _ _).isInfix

/-- C3 at a script that exits with status 1 after writing `db error`: the
body is the generic message, does not contain `db error`, and equals the body
of a run that wrote something else; the log line contains `db error`. -/
theorem C3_witness :
    (ScriptRoute.base64postjsonreturn.handler (failingWorld (lit "db error")) (State.start [])
        samplePost).w.body = lit "Error: exit status 1\n" ∧
      ¬ (lit "db error" <:+: (ScriptRoute.base64postjsonreturn.handler
        (failingWorld (lit "db error")) (State.start []) samplePost).w.body) ∧
      (ScriptRoute.base64postjsonreturn.handler (failingWorld (lit "db error")) (State.start [])
        samplePost).w =
      (ScriptRoute.base64postjsonreturn.handler (failingWorld (lit "relation missing"))
        (State.start []) samplePost).w ∧
      ∃ line ∈ (ScriptRoute.base64postjsonreturn.handler (failingWorld (lit "db error"))
        (State.start []) samplePost).logged, lit "db error" <:+: line :=
  have h := C3_failure_response_ignores_output (failingWorld (lit "db error"))
    (failingWorld (lit "relation missing")) .base64postjsonreturn [] samplePost
    ⟨lit "mydb", lit "aGVsbG8="⟩ (lit "/srv/api") (lit "exit status 1") (lit "db error")
    (lit "relation missing") (by decide) (by decide) rfl rfl (by decide) (by decide)
    (by decide) (by decide)
  ⟨h.2.1.trans (by decide), by rw [h.2.1]; decide, h.2.2.1, h.2.2.2⟩

/-! ## C4: other methods than POST -/

/-- C4: on each of the three script-backed routes a request whose method is
not POST is answered with status 405 and the handler performs no action at
all (no process is started), whatever the body is. -/
theorem C4_not_post_405_no_process (world : World) (route : ScriptRoute)
    (hdr : List (Str × Str)) (r : Request) (h : r.method ≠ MethodPost) :
    (route.handler world (State.start hdr) r).w.status = some 405 ∧
      (route.handler world (State.start hdr) r).spawned = [] ∧
      (route.handler world (State.start hdr) r).events = [] := by
  rw [handler_eq, run_not_post _ _ _ _ _ h]
  exact ⟨httpError_status _ _ _, rfl, rfl⟩

/-- C4 at a GET request carrying a well-formed envelope. -/
theorem C4_witness :
    (ScriptRoute.base64nonquery.handler echoWorld (State.start []) ⟨lit "GET", sampleBody⟩).w.status
        = some 405 ∧
      (ScriptRoute.base64nonquery.handler echoWorld (State.start [])
        ⟨lit "GET", sampleBody⟩).spawned = [] :=
  have h := C4_not_post_405_no_process echoWorld .base64nonquery [] ⟨lit "GET", sampleBody⟩
    (by decide)
  ⟨h.1, h.2.1⟩

/-! ## C5: bodies longer than the limit -/

/-- C5 as stated fails: the sample envelope followed by 10 MiB of spaces is
longer than the limit, yet the handler answers 200 and runs the script with
the two decoded fields. -/
theorem C5_counterexample :
    maxBodyBytes < oversizedBody.length ∧
      (ScriptRoute.base64querypostbase64return.handler echoWorld (State.start [])
        ⟨MethodPost, oversizedBody⟩).w.status = some 200 ∧
      (ScriptRoute.base64querypostbase64return.handler echoWorld (State.start [])
        ⟨MethodPost, oversizedBody⟩).spawned =
        [(lit "/srv/api/base64_query_base64_return.sh", [lit "mydb", lit "aGVsbG8="])] := by
  refine ⟨?_, ?_, ?_⟩
  · have h : 0 < sampleBody.length := by decide
    have hl : oversizedBody.length = sampleBody.length + maxBodyBytes := by
      simp [oversizedBody]
    omega
  · decide
  · decide

/-- C5, amended: a POST request to a script-backed route whose body is longer
than 10 MiB and whose first 10 MiB do not decode as a request envelope on
their own (in particular when the first JSON value is not complete within
them) is answered with status 400, and no process is started. -/
theorem C5_oversized_body_rejected_unless_envelope_fits (world : World) (route : ScriptRoute)
    (hdr : List (Str × Str)) (r : Request) (e : DecodeError) (h : r.method = MethodPost)
    (_hlen : maxBodyBytes < r.body.length)
    (hd : decodeRequestBody maxBodyBytes (r.body.take maxBodyBytes) = .error e) :
    (route.handler world (State.start hdr) r).w.status = some 400 ∧
      (route.handler world (State.start hdr) r).events = [] ∧
      (route.handler world (State.start hdr) r).spawned = [] := by
  cases hfull : decodeRequestBody maxBodyBytes r.body with
  | ok req =>
    rw [decodeRequestBody_take _ _ _ hfull] at hd
    exact absurd hd (by simp)
  | error e2 =>
    rw [handler_eq, run_bad_body _ _ _ _ _ e2 h hfull]
    exact ⟨httpError_status _ _ _, rfl, rfl⟩

theorem endlessString_take :
    endlessString.take maxBodyBytes =
      lit "\x7b\"database\":\"" ++ List.replicate (maxBodyBytes - 13) 0x61 := by
  have hl : (lit "\x7b\"database\":\"").length = 13 := by decide
  have hm : maxBodyBytes = 10485760 := by decide
  rw [endlessString, List.take_append_eq_append_take, hl,
    List.take_of_length_le (by rw [hl, hm]; omega), List.take_replicate,
    Nat.min_eq_left (Nat.sub_le _ _)]

theorem endlessString_undecodable :
    decodeRequestBody maxBodyBytes (endlessString.take maxBodyBytes) = .error .unexpectedEOF := by
  have hl : (lit "\x7b\"database\":\"").length = 13 := by decide
  have hm : maxBodyBytes = (lit "\x7b\"database\":\"").length + (maxBodyBytes - 13) := by
    rw [hl]; decide
  have hs : scanThrough Scanner.reset Collector.init (lit "\x7b\"database\":\"") =
      some (⟨.inString, [.objectValue]⟩,
        ⟨some .object, [], lit "\"database\"", .str [0x22], .stringValue⟩) := by decide
  have hr : readValue Scanner.reset Collector.init maxBodyBytes
      (lit "\x7b\"database\":\"" ++ List.replicate (maxBodyBytes - 13) 0x61)
      = .error .unexpectedEOF := by
    have := readValue_append (lit "\x7b\"database\":\"") (List.replicate (maxBodyBytes - 13) 0x61)
      _ _ _ _ (maxBodyBytes - 13) hs
    rw [← hm] at this
    rw [this]
    exact readValue_unterminated _ _ _ rfl rfl
  rw [endlessString_take]
  exact decodeRequestBody_error _ _ _ hr

/-- C5, amended, at a body that opens a string and never closes it within
more than 10 MiB. -/
theorem C5_witness :
    (ScriptRoute.base64querypostbase64return.handler echoWorld (State.start [])
        ⟨MethodPost, endlessString⟩).w.status = some 400 ∧
      (ScriptRoute.base64querypostbase64return.handler echoWorld (State.start [])
        ⟨MethodPost, endlessString⟩).spawned = [] :=
  have hlen : maxBodyBytes < endlessString.length := by
    have hl : 0 < (lit "\x7b\"database\":\"").length := by decide
    have hl2 : endlessString.length = (lit "\x7b\"database\":\"").length + maxBodyBytes := by
      simp [endlessString]
    omega
  have h := C5_oversized_body_rejected_unless_envelope_fits echoWorld
    .base64querypostbase64return [] ⟨MethodPost, endlessString⟩ .unexpectedEOF rfl hlen
    endlessString_undecodable
  ⟨h.1, h.2.2⟩

/-! ## C6: bodies the decoder rejects -/

theorem stateEndValue_scanEnd (s : Scanner) (c : Nat) (h : (stateEndValue s c).2 = .scanEnd) :
    s.parseState = [] := by
  unfold stateEndValue at h
  split at h
  · assumption
  · rename_i ps below hps
    exfalso
    cases ps <;> simp only [Scanner.fail] at h <;> split_ifs at h

theorem stateEndValue_nil (s : Scanner) (c : Nat) (h : s.parseState = []) :
    (stateEndValue s c).2 = .scanEnd ∧
      (stateEndValue s c).1.step = if isSpace c then .endTop else .error := by
  unfold stateEndValue
  rw [h]
  simp only [stateEndTop]
  split_ifs <;> simp

theorem stateEndTop_step (s : Scanner) (c : Nat) :
    (stateEndTop s c).1.step = s.step ∨ (stateEndTop s c).1.step = .error := by
  unfold stateEndTop
  split_ifs
  · exact Or.inl rfl
  · exact Or.inr rfl

theorem stateEndValue_step (s : Scanner) (c : Nat) :
    (stateEndValue s c).1.step ≠ .beginValueOrEmpty := by
  unfold stateEndValue
  split
  · rcases stateEndTop_step { s with step := .endTop } c with h | h <;> rw [h] <;> simp
  · rename_i ps below hps
    cases ps <;> simp only [Scanner.fail] <;> split_ifs <;> simp

theorem wf_of_step_ne (s : Scanner) (h : s.step ≠ .beginValueOrEmpty) : s.wf :=
  fun hs => absurd hs h

theorem pushParseState_wf (s : Scanner) (next : Step) (p : ParseState) (ok : Op) :
    (s.pushParseState next p ok).1.wf := by
  unfold Scanner.pushParseState
  split_ifs <;> (intro _; simp)

theorem stateBeginValue_wf (s : Scanner) (c : Nat) (h : s.wf) : (stateBeginValue s c).1.wf := by
  unfold stateBeginValue
  by_cases h1 : isSpace c = true
  · rw [if_pos h1]; exact h
  rw [if_neg h1]
  by_cases h2 : c = 0x7B
  · rw [if_pos h2]; exact pushParseState_wf _ _ _ _
  rw [if_neg h2]
  by_cases h3 : c = 0x5B
  · rw [if_pos h3]; exact pushParseState_wf _ _ _ _
  rw [if_neg h3]
  refine wf_of_step_ne _ ?_
  simp only [Scanner.fail]
  split_ifs <;> simp

theorem stateBeginString_wf (s : Scanner) (c : Nat) (h : s.wf) :
    (stateBeginString s c).1.wf := by
  unfold stateBeginString Scanner.fail
  split_ifs <;> first | exact h | (intro hstep; simp at hstep)

theorem state0_wf (s : Scanner) (c : Nat) : (state0 s c).1.wf := by
  unfold state0
  split_ifs
  · exact wf_of_step_ne _ (by simp)
  · exact wf_of_step_ne _ (by simp)
  · exact wf_of_step_ne _ (stateEndValue_step s c)

theorem stateESign_wf (s : Scanner) (c : Nat) : (stateESign s c).1.wf := by
  unfold stateESign Scanner.fail
  split_ifs <;> exact wf_of_step_ne _ (by simp)

theorem expect_wf (s : Scanner) (c want : Nat) (next : Step)
    (h : next ≠ .beginValueOrEmpty) : (s.expect c want next).1.wf := by
  unfold Scanner.expect Scanner.fail
  split_ifs
  · exact wf_of_step_ne _ h
  · exact wf_of_step_ne _ (by simp)

theorem next_wf (s : Scanner) (c : Nat) (h : s.wf) : (s.next c).1.wf := by
  unfold Scanner.next
  split
  · split_ifs
    · exact h
    · exact wf_of_step_ne _ (stateEndValue_step _ _)
    · exact stateBeginValue_wf s c h
  · exact stateBeginValue_wf s c h
  · split_ifs
    · exact h
    · exact wf_of_step_ne _ (stateEndValue_step _ _)
    · exact stateBeginString_wf s c h
  · exact stateBeginString_wf s c h
  · exact wf_of_step_ne _ (stateEndValue_step _ _)
  · rename_i hs
    rcases stateEndTop_step s c with h1 | h1
    · exact wf_of_step_ne _ (by rw [h1, hs]; simp)
    · exact wf_of_step_ne _ (by rw [h1]; simp)
  all_goals first
    | exact state0_wf s c
    | exact stateESign_wf s c
    | exact expect_wf s c _ _ (by simp)
    | exact h
    | (try simp only [Scanner.fail]
       split_ifs <;>
        first
        | exact h
        | exact state0_wf s c
        | exact stateESign_wf s c
        | exact wf_of_step_ne _ (stateEndValue_step _ _)
        | exact wf_of_step_ne _ (by simp))

theorem fail_op (s : Scanner) : s.fail.2 ≠ .scanEnd := fun h => Op.noConfusion h

theorem ite_op_ne (p : Prop) [Decidable p] (a b : Scanner × Op) (x : Op) (ha : a.2 ≠ x)
    (hb : b.2 ≠ x) : (if p then a else b).2 ≠ x := by
  split_ifs <;> assumption

theorem ite_op_eq (p : Prop) [Decidable p] (a b : Scanner × Op) (x : Op)
    (h : (if p then a else b).2 = x) : a.2 = x ∨ b.2 = x := by
  split_ifs at h
  · exact Or.inl h
  · exact Or.inr h

theorem pushParseState_op (s : Scanner) (next : Step) (p : ParseState) (ok : Op)
    (h : ok ≠ .scanEnd) : (s.pushParseState next p ok).2 ≠ .scanEnd := by
  unfold Scanner.pushParseState
  exact ite_op_ne _ _ _ _ h (fun h => Op.noConfusion h)

theorem stateBeginValue_op (s : Scanner) (c : Nat) : (stateBeginValue s c).2 ≠ .scanEnd := by
  unfold stateBeginValue
  refine ite_op_ne _ _ _ _ (fun h => Op.noConfusion h) ?_
  refine ite_op_ne _ _ _ _ (pushParseState_op _ _ _ _ (fun h => Op.noConfusion h)) ?_
  refine ite_op_ne _ _ _ _ (pushParseState_op _ _ _ _ (fun h => Op.noConfusion h)) ?_
  repeat' refine ite_op_ne _ _ _ _ (fun h => Op.noConfusion h) ?_
  exact fail_op s

theorem stateBeginString_op (s : Scanner) (c : Nat) : (stateBeginString s c).2 ≠ .scanEnd := by
  unfold stateBeginString
  repeat' refine ite_op_ne _ _ _ _ (fun h => Op.noConfusion h) ?_
  exact fail_op s

theorem stateESign_op (s : Scanner) (c : Nat) : (stateESign s c).2 ≠ .scanEnd := by
  unfold stateESign
  exact ite_op_ne _ _ _ _ (fun h => Op.noConfusion h) (fail_op s)

theorem expect_op (s : Scanner) (c want : Nat) (next : Step) :
    (s.expect c want next).2 ≠ .scanEnd := by
  unfold Scanner.expect
  exact ite_op_ne _ _ _ _ (fun h => Op.noConfusion h) (fail_op s)

theorem state0_scanEnd (s : Scanner) (c : Nat) (h : (state0 s c).2 = .scanEnd) :
    s.parseState = [] := by
  unfold state0 at h
  rcases ite_op_eq _ _ _ _ h with h | h
  · exact Op.noConfusion h
  rcases ite_op_eq _ _ _ _ h with h | h
  · exact Op.noConfusion h
  · exact stateEndValue_scanEnd s c h

theorem eofOk_of_nil (step : Step)
    (h : step = .endValue ∨ step = .s1 ∨ step = .s0 ∨ step = .dot0 ∨ step = .e0) :
    eofOk ⟨step, []⟩ = true ∧ (Scanner.next ⟨step, []⟩ 0x20).2 = .scanEnd := by
  rcases h with rfl | rfl | rfl | rfl | rfl <;> decide

/-- When a byte ends the top-level value, the text before it is complete: the
scanner accepts the end of input there. -/
theorem next_scanEnd (s : Scanner) (c : Nat) (hwf : s.wf) (h : (s.next c).2 = .scanEnd) :
    eofOk s = true ∧ (s.next 0x20).2 = .scanEnd := by
  obtain ⟨step, ps⟩ := s
  cases step <;> simp only [Scanner.next] at h
  case beginValueOrEmpty =>
    exfalso
    rcases ite_op_eq _ _ _ _ h with h | h
    · exact Op.noConfusion h
    rcases ite_op_eq _ _ _ _ h with h | h
    · exact hwf rfl (stateEndValue_scanEnd _ _ h)
    · exact stateBeginValue_op _ _ h
  case beginValue => exact absurd h (stateBeginValue_op _ _)
  case beginStringOrEmpty =>
    exfalso
    rcases ite_op_eq _ _ _ _ h with h | h
    · exact Op.noConfusion h
    rcases ite_op_eq _ _ _ _ h with h | h
    · exact List.cons_ne_nil _ _ (stateEndValue_scanEnd _ _ h)
    · exact stateBeginString_op _ _ h
  case beginString => exact absurd h (stateBeginString_op _ _)
  case endValue =>
    have hp : ps = [] := stateEndValue_scanEnd _ _ h
    subst hp
    exact eofOk_of_nil _ (by simp)
  case endTop =>
    exact ⟨by simp [eofOk], by simp [Scanner.next, stateEndTop, isSpace]⟩
  case s1 =>
    rcases ite_op_eq _ _ _ _ h with h | h
    · exact Op.noConfusion h
    have hp : ps = [] := state0_scanEnd _ _ h
    subst hp
    exact eofOk_of_nil _ (by simp)
  case s0 =>
    have hp : ps = [] := state0_scanEnd _ _ h
    subst hp
    exact eofOk_of_nil _ (by simp)
  case dot0 =>
    rcases ite_op_eq _ _ _ _ h with h | h
    · exact Op.noConfusion h
    rcases ite_op_eq _ _ _ _ h with h | h
    · exact Op.noConfusion h
    have hp : ps = [] := stateEndValue_scanEnd _ _ h
    subst hp
    exact eofOk_of_nil _ (by simp)
  case e0 =>
    rcases ite_op_eq _ _ _ _ h with h | h
    · exact Op.noConfusion h
    have hp : ps = [] := stateEndValue_scanEnd _ _ h
    subst hp
    exact eofOk_of_nil _ (by simp)
  all_goals
    exfalso
    first
    | exact expect_op _ _ _ _ h
    | exact stateESign_op _ _ h
    | exact Op.noConfusion h
    | (rcases ite_op_eq _ _ _ _ h with h | h
       · exact Op.noConfusion h
       first
       | exact Op.noConfusion h
       | exact fail_op _ h
       | exact stateESign_op _ _ h
       | (rcases ite_op_eq _ _ _ _ h with h | h
          · exact Op.noConfusion h
          first
          | exact Op.noConfusion h
          | exact fail_op _ h
          | (rcases ite_op_eq _ _ _ _ h with h | h
             · exact Op.noConfusion h
             exact Op.noConfusion h)))

theorem closeTop_of_op (s : Scanner) (op : Op) (h1 : op ≠ .endObject) (h2 : op ≠ .endArray) :
    CloseTop (s, op) := by
  intro h
  rcases h with h | h
  · exact absurd h h1
  · exact absurd h h2

theorem closeTop_ite (p : Prop) [Decidable p] (a b : Scanner × Op) (ha : CloseTop a)
    (hb : CloseTop b) : CloseTop (if p then a else b) := by
  split_ifs <;> assumption

theorem closeTop_plain (p : Prop) [Decidable p] (s : Scanner) (op : Op) (b : Scanner × Op)
    (h1 : op ≠ .endObject) (h2 : op ≠ .endArray) (hb : CloseTop b) :
    CloseTop (if p then (s, op) else b) :=
  closeTop_ite _ _ _ (closeTop_of_op _ _ h1 h2) hb

theorem closeTop_fail (s : Scanner) : CloseTop s.fail :=
  closeTop_of_op _ _ (fun h => Op.noConfusion h) (fun h => Op.noConfusion h)

theorem closeTop_pop (below : List ParseState) (op : Op) :
    CloseTop (⟨if below = [] then .endTop else .endValue, below⟩, op) := by
  intro _ hp
  have hb : below = [] := hp
  subst hb
  rfl

theorem closeTop_stateEndTop (s : Scanner) (c : Nat) : CloseTop (stateEndTop s c) := by
  unfold stateEndTop
  exact closeTop_ite _ _ _
    (closeTop_of_op _ _ (fun h => Op.noConfusion h) (fun h => Op.noConfusion h))
    (closeTop_of_op _ _ (fun h => Op.noConfusion h) (fun h => Op.noConfusion h))

theorem closeTop_stateEndValue (s : Scanner) (c : Nat) : CloseTop (stateEndValue s c) := by
  unfold stateEndValue
  split
  · exact closeTop_stateEndTop _ _
  · rename_i ps below hps
    refine closeTop_ite _ _ _
      (closeTop_of_op _ _ (fun h => Op.noConfusion h) (fun h => Op.noConfusion h)) ?_
    cases ps
    · exact closeTop_ite _ _ _
        (closeTop_of_op _ _ (fun h => Op.noConfusion h) (fun h => Op.noConfusion h))
        (closeTop_fail s)
    · exact closeTop_ite _ _ _
        (closeTop_of_op _ _ (fun h => Op.noConfusion h) (fun h => Op.noConfusion h))
        (closeTop_ite _ _ _ (closeTop_pop _ _) (closeTop_fail s))
    · exact closeTop_ite _ _ _
        (closeTop_of_op _ _ (fun h => Op.noConfusion h) (fun h => Op.noConfusion h))
        (closeTop_ite _ _ _ (closeTop_pop _ _) (closeTop_fail s))

theorem closeTop_pushParseState (s : Scanner) (next : Step) (p : ParseState) (ok : Op)
    (h1 : ok ≠ .endObject) (h2 : ok ≠ .endArray) : CloseTop (s.pushParseState next p ok) := by
  unfold Scanner.pushParseState
  exact closeTop_ite _ _ _ (closeTop_of_op _ _ h1 h2)
    (closeTop_of_op _ _ (fun h => Op.noConfusion h) (fun h => Op.noConfusion h))

theorem closeTop_stateBeginValue (s : Scanner) (c : Nat) : CloseTop (stateBeginValue s c) := by
  unfold stateBeginValue
  refine closeTop_ite _ _ _
    (closeTop_of_op _ _ (fun h => Op.noConfusion h) (fun h => Op.noConfusion h)) ?_
  refine closeTop_ite _ _ _
    (closeTop_pushParseState _ _ _ _ (fun h => Op.noConfusion h) (fun h => Op.noConfusion h)) ?_
  refine closeTop_ite _ _ _
    (closeTop_pushParseState _ _ _ _ (fun h => Op.noConfusion h) (fun h => Op.noConfusion h)) ?_
  repeat' refine closeTop_plain _ _ _ _ (fun h => Op.noConfusion h) (fun h => Op.noConfusion h) ?_
  exact closeTop_fail s

theorem closeTop_stateBeginString (s : Scanner) (c : Nat) :
    CloseTop (stateBeginString s c) := by
  unfold stateBeginString
  repeat' refine closeTop_plain _ _ _ _ (fun h => Op.noConfusion h) (fun h => Op.noConfusion h) ?_
  exact closeTop_fail s

theorem closeTop_state0 (s : Scanner) (c : Nat) : CloseTop (state0 s c) := by
  unfold state0
  repeat' refine closeTop_plain _ _ _ _ (fun h => Op.noConfusion h) (fun h => Op.noConfusion h) ?_
  exact closeTop_stateEndValue s c

theorem closeTop_stateESign (s : Scanner) (c : Nat) : CloseTop (stateESign s c) := by
  unfold stateESign
  exact closeTop_ite _ _ _
    (closeTop_of_op _ _ (fun h => Op.noConfusion h) (fun h => Op.noConfusion h))
    (closeTop_fail s)

theorem closeTop_expect (s : Scanner) (c want : Nat) (next : Step) :
    CloseTop (s.expect c want next) := by
  unfold Scanner.expect
  exact closeTop_ite _ _ _
    (closeTop_of_op _ _ (fun h => Op.noConfusion h) (fun h => Op.noConfusion h))
    (closeTop_fail s)

theorem closeTop_next (s : Scanner) (c : Nat) : CloseTop (s.next c) := by
  unfold Scanner.next
  split
  all_goals first
    | exact closeTop_stateBeginValue s c
    | exact closeTop_stateBeginString s c
    | exact closeTop_stateEndValue s c
    | exact closeTop_stateEndTop s c
    | exact closeTop_state0 s c
    | exact closeTop_stateESign s c
    | exact closeTop_expect s c _ _
    | exact closeTop_of_op _ _ (fun h => Op.noConfusion h) (fun h => Op.noConfusion h)
    | (repeat' refine closeTop_plain _ _ _ _ (fun h => Op.noConfusion h) (fun h => Op.noConfusion h) ?_
       first
       | exact closeTop_fail s
       | exact closeTop_stateBeginValue s c
       | exact closeTop_stateBeginString s c
       | exact closeTop_stateEndValue s c
       | exact closeTop_state0 s c
       | exact closeTop_stateESign s c
       | exact closeTop_of_op _ _ (fun h => Op.noConfusion h) (fun h => Op.noConfusion h)
       | (refine closeTop_ite _ _ _ (closeTop_stateEndValue _ c) ?_
          first
          | exact closeTop_stateBeginValue s c
          | exact closeTop_stateBeginString s c))

theorem scanAll_cons (s : Scanner) (c : Nat) (rest : Str) :
    scanAll s (c :: rest) =
      if (s.next c).2 = .scanError then none else scanAll (s.next c).1 rest := rfl

theorem readValue_nil (s : Scanner) (k : Collector) (n : Nat) :
    readValue s k n [] =
      if (s.next 0x20).2 = .scanEnd then .ok k
      else if k.top.isSome then .error .unexpectedEOF
      else .error .eof := by
  cases n <;> rfl

/-- After a closing bracket that empties the stack the text read so far is a
complete document. -/
theorem next_close_eof (s : Scanner) (c : Nat)
    (hop : (s.next c).2 = .endObject ∨ (s.next c).2 = .endArray)
    (hend : (stateEndValue (s.next c).1 0x20).2 = .scanEnd) :
    eofOk (s.next c).1 = true ∧ ((s.next c).1.next 0x20).2 = .scanEnd := by
  have hp : (s.next c).1.parseState = [] := stateEndValue_scanEnd _ _ hend
  have hs : (s.next c).1.step = .endTop := closeTop_next s c hop hp
  generalize (s.next c).1 = t at hp hs
  obtain ⟨step, ps⟩ := t
  have h1 : step = .endTop := hs
  have h2 : ps = [] := hp
  subst h1 h2
  decide

/-- A value the stream decoder accepts ends at some initial segment of the
body, and that segment alone is a complete JSON text that the decoder reads
to the same result. -/
theorem readValue_prefix (body : Str) :
    ∀ (s : Scanner) (k : Collector) (n : Nat) (out : Collector), s.wf →
      readValue s k n body = .ok out →
      ∃ p, p <+: body ∧ p.length ≤ n ∧ (∃ s1, scanAll s p = some s1 ∧ eofOk s1 = true) ∧
        readValue s k p.length p = .ok out := by
  induction body with
  | nil =>
    intro s k n out hwf h
    rw [readValue_nil] at h
    by_cases he : (s.next 0x20).2 = .scanEnd
    · refine ⟨[], List.prefix_refl _, Nat.zero_le _, ⟨s, rfl, (next_scanEnd s 0x20 hwf he).1⟩, ?_⟩
      rw [readValue_nil]
      exact h
    · rw [if_neg he] at h
      split_ifs at h
  | cons c rest ih =>
    intro s k n out hwf h
    cases n with
    | zero => simp [readValue] at h
    | succ n =>
      rw [readValue_cons] at h
      have hnext := next_wf s c hwf
      have hend := next_scanEnd s c hwf
      have hclose := next_close_eof s c
      have hcons : ∀ p : Str, scanAll s (c :: p) =
          if (s.next c).2 = .scanError then none else scanAll (s.next c).1 p :=
        fun p => scanAll_cons s c p
      have hread : ∀ p : Str, readValue s k (p.length + 1) (c :: p) = _ :=
        fun p => readValue_cons s k p.length c p
      have hnil : readValue s k 0 [] = _ := readValue_nil s k 0
      generalize s.next c = r at h hnext hend hclose hcons hread
      obtain ⟨s1, op⟩ := r
      have step : ∀ (hne : op ≠ .scanError)
          (hrec : ∀ p : Str, readValue s k (p.length + 1) (c :: p) =
            readValue s1 (k.collect s.parseState c op) p.length p)
          (hr : readValue s1 (k.collect s.parseState c op) n rest = .ok out),
          ∃ p, p <+: c :: rest ∧ p.length ≤ n + 1 ∧
            (∃ s2, scanAll s p = some s2 ∧ eofOk s2 = true) ∧
            readValue s k p.length p = .ok out := by
        intro hne hrec hr
        obtain ⟨p, hp, hpn, ⟨s2, hs2, he2⟩, hrp⟩ := ih _ _ _ _ hnext hr
        refine ⟨c :: p, List.cons_prefix_cons.mpr ⟨rfl, hp⟩, Nat.succ_le_succ hpn,
          ⟨s2, ?_, he2⟩, ?_⟩
        · rw [hcons, if_neg hne]
          exact hs2
        · rw [List.length_cons, hrec]
          exact hrp
      have stop : ∀ (hop : op = .scanEnd) (hk : k = out),
          ∃ p, p <+: c :: rest ∧ p.length ≤ n + 1 ∧
            (∃ s2, scanAll s p = some s2 ∧ eofOk s2 = true) ∧
            readValue s k p.length p = .ok out := by
        intro hop hk
        refine ⟨[], List.nil_prefix, Nat.zero_le _, ⟨s, rfl, (hend hop).1⟩, ?_⟩
        rw [List.length_nil, hnil, if_pos (hend hop).2, hk]
      have close : ∀ (hop : op = .endObject ∨ op = .endArray)
          (hrec : ∀ p : Str, readValue s k (p.length + 1) (c :: p) =
            if (stateEndValue s1 0x20).2 = .scanEnd then .ok (k.collect s.parseState c op)
            else readValue s1 (k.collect s.parseState c op) p.length p)
          (hr : (if (stateEndValue s1 0x20).2 = .scanEnd then
              (.ok (k.collect s.parseState c op) : Except DecodeError Collector)
            else readValue s1 (k.collect s.parseState c op) n rest) = .ok out),
          ∃ p, p <+: c :: rest ∧ p.length ≤ n + 1 ∧
            (∃ s2, scanAll s p = some s2 ∧ eofOk s2 = true) ∧
            readValue s k p.length p = .ok out := by
        intro hop hrec hr
        have hne : op ≠ .scanError := by
          rcases hop with hop | hop <;> rw [hop] <;> exact fun h => Op.noConfusion h
        by_cases hc : (stateEndValue s1 0x20).2 = .scanEnd
        · rw [if_pos hc] at hr
          refine ⟨[c], List.cons_prefix_cons.mpr ⟨rfl, List.nil_prefix⟩,
            Nat.succ_le_succ (Nat.zero_le _), ⟨s1, ?_, (hclose hop hc).1⟩, ?_⟩
          · rw [hcons, if_neg hne]
            rfl
          · have := hrec []
            rw [if_pos hc] at this
            rw [← hr]
            exact this
        · rw [if_neg hc] at hr
          refine step hne (fun p => ?_) hr
          rw [hrec p, if_neg hc]
      cases op
      case scanEnd =>
        refine stop rfl ?_
        simpa using h
      case scanError => exact absurd h (by simp)
      case endObject => exact close (Or.inl rfl) hread h
      case endArray => exact close (Or.inr rfl) hread h
      all_goals exact step (fun h => Op.noConfusion h) hread h

/-- What the stream decoder accepts is what `json.Unmarshal` makes of some
initial segment of the body, no longer than the reader's limit. -/
theorem decodeRequestBody_prefix (limit : Nat) (body : Str) (req : RequestBody)
    (h : decodeRequestBody limit body = .ok req) :
    ∃ p, p <+: body ∧ p.length ≤ limit ∧ jsonUnmarshal p = .ok req := by
  unfold decodeRequestBody at h
  cases hr : readValue Scanner.reset Collector.init limit body with
  | error e => simp [hr] at h
  | ok k =>
    rw [hr] at h
    have hwf : Scanner.reset.wf := fun hs => Step.noConfusion hs
    obtain ⟨p, hp, hpn, ⟨s1, hs1, he1⟩, hrp⟩ := readValue_prefix body _ _ _ _ hwf hr
    refine ⟨p, hp, hpn, ?_⟩
    have hv : jsonValid p = true := by
      unfold jsonValid
      rw [hs1]
      exact he1
    unfold jsonUnmarshal decodeRequestBody
    rw [if_pos hv, hrp]
    exact h

theorem decodeRequestBody_no_prefix (limit : Nat) (body : Str)
    (hno : ∀ p, p <+: body → p.length ≤ limit → wellFormedEnvelope p = false) :
    ∃ e, decodeRequestBody limit body = .error e := by
  cases hd : decodeRequestBody limit body with
  | error e => exact ⟨e, rfl⟩
  | ok req =>
    obtain ⟨p, hp, hpn, hu⟩ := decodeRequestBody_prefix limit body req hd
    have := hno p hp hpn
    unfold wellFormedEnvelope at this
    rw [hu] at this
    exact absurd this (by simp)

/-- C6 as stated fails: the sample envelope followed by the bytes `garbage` is
not well-formed JSON (`json.Valid` and `json.Unmarshal` reject it), yet the
handler answers 200 and runs the script with the two decoded fields, because
`Decoder.Decode` stops reading at the brace that closes the first value. -/
theorem C6_counterexample :
    jsonValid trailingGarbageBody = false ∧
      wellFormedEnvelope trailingGarbageBody = false ∧
      (ScriptRoute.base64postjsonreturn.handler echoWorld (State.start [])
        ⟨MethodPost, trailingGarbageBody⟩).w.status = some 200 ∧
      (ScriptRoute.base64postjsonreturn.handler echoWorld (State.start [])
        ⟨MethodPost, trailingGarbageBody⟩).spawned =
        [(lit "/srv/api/base64_query_json_return.sh", [lit "mydb", lit "aGVsbG8="])] := by
  refine ⟨?_, ?_, ?_, ?_⟩ <;> decide

/-- C6, amended: a POST request to a script-backed route of whose body no
initial segment of at most 10 MiB (the whole body included) is a well-formed
JSON text decodable as the two-string-field request envelope is answered with
status 400 and the message `Invalid request body`, and the handler returns at
once: it does not ask for the working directory, resolves no script path and
starts no process. -/
theorem C6_no_envelope_prefix_400 (world : World) (route : ScriptRoute)
    (hdr : List (Str × Str)) (r : Request) (h : r.method = MethodPost)
    (hno : ∀ p, p <+: r.body → p.length ≤ maxBodyBytes → wellFormedEnvelope p = false) :
    (route.handler world (State.start hdr) r).w.status = some 400 ∧
      (route.handler world (State.start hdr) r).w.body = lit "Invalid request body\n" ∧
      (route.handler world (State.start hdr) r).events = [] ∧
      (route.handler world (State.start hdr) r).spawned = [] := by
  obtain ⟨e, hd⟩ := decodeRequestBody_no_prefix maxBodyBytes r.body hno
  rw [handler_eq, run_bad_body _ _ _ _ _ e h hd]
  refine ⟨httpError_status _ _ _, ?_, rfl, rfl⟩
  rw [show (State.start hdr).w = ⟨hdr, none, []⟩ from rfl, httpError_body _ _ _ (by decide)]
  decide

/-- C6, amended, at a body with a trailing comma, and at one whose `database`
is a number: no initial segment of either is an envelope. -/
theorem C6_witness :
    (ScriptRoute.base64postjsonreturn.handler echoWorld (State.start [])
        ⟨MethodPost, lit "\x7b\"database\":\"mydb\",\x7d"⟩).w.status = some 400 ∧
      (ScriptRoute.base64postjsonreturn.handler echoWorld (State.start [])
        ⟨MethodPost, lit "\x7b\"database\":7,\"base64value\":\"aGVsbG8=\"\x7d"⟩).events = [] :=
  ⟨(C6_no_envelope_prefix_400 echoWorld .base64postjsonreturn []
      ⟨MethodPost, lit "\x7b\"database\":\"mydb\",\x7d"⟩ (by decide)
      (fun p hp _ =>
        (by decide : ∀ q ∈ (lit "\x7b\"database\":\"mydb\",\x7d").inits,
          wellFormedEnvelope q = false) p ((List.mem_inits _ _).mpr hp))).1,
   (C6_no_envelope_prefix_400 echoWorld .base64postjsonreturn []
      ⟨MethodPost, lit "\x7b\"database\":7,\"base64value\":\"aGVsbG8=\"\x7d"⟩ (by decide)
      (fun p hp _ =>
        (by decide : ∀ q ∈ (lit "\x7b\"database\":7,\"base64value\":\"aGVsbG8=\"\x7d").inits,
          wellFormedEnvelope q = false) p ((List.mem_inits _ _).mpr hp))).2.2.1⟩

/-! ## C8: the CORS wrapper -/

theorem applyCors_header (configMap : ConfigMap) :
    ((ResponseWriter.fresh.Set (lit "Access-Control-Allow-Origin")
      (getCorsAllowedList configMap)).Set
      (lit "Access-Control-Allow-Methods") (lit "GET, POST, OPTIONS, PATCH")).Set
      (lit "Access-Control-Allow-Headers") (lit "Content-Type")
      = ⟨corsHeader configMap, none, []⟩ := by
  have h1 : lit "Access-Control-Allow-Origin" ≠ lit "Access-Control-Allow-Methods" := by decide
  have h2 : lit "Access-Control-Allow-Origin" ≠ lit "Access-Control-Allow-Headers" := by decide
  have h3 : lit "Access-Control-Allow-Methods" ≠ lit "Access-Control-Allow-Headers" := by decide
  simp [ResponseWriter.Set, ResponseWriter.fresh, setField, corsHeader, h1, h2, h3]

theorem applyCors_options (configMap : ConfigMap) (next : Handler) (r : Request)
    (h : r.method = MethodOptions) :
    applyCors configMap next State.fresh r = ⟨⟨corsHeader configMap, some 204, []⟩, []⟩ := by
  simp only [applyCors]
  rw [if_pos h, show State.fresh.w = ResponseWriter.fresh from rfl, applyCors_header]
  rfl

theorem applyCors_other (configMap : ConfigMap) (next : Handler) (r : Request)
    (h : r.method ≠ MethodOptions) :
    applyCors configMap next State.fresh r = next (State.start (corsHeader configMap)) r := by
  simp only [applyCors]
  rw [if_neg h, show State.fresh.w = ResponseWriter.fresh from rfl, applyCors_header]
  rfl

/-- C8: for every wrapped handler, every configuration and every request,
`applyCors` sets `Access-Control-Allow-Origin` to the configured
`cors_allowed_domains` string (the empty string when the key is absent or the
configuration is not loaded), `Access-Control-Allow-Methods` to
`GET, POST, OPTIONS, PATCH` and `Access-Control-Allow-Headers` to
`Content-Type`. For an OPTIONS request the response is status 204 with these
headers and an empty body and does not depend on the wrapped handler, which
is not run; for any other method the result is that of running the wrapped
handler once on the response carrying these headers. -/
theorem C8_cors_preflight_and_delegation (configMap : ConfigMap) (next : Handler) (r : Request) :
    (r.method = MethodOptions →
      (applyCors configMap next State.fresh r).w.status = some 204 ∧
      (applyCors configMap next State.fresh r).w.body = [] ∧
      (applyCors configMap next State.fresh r).w.header = corsHeader configMap ∧
      (applyCors configMap next State.fresh r).events = [] ∧
      ∀ other : Handler,
        applyCors configMap other State.fresh r = applyCors configMap next State.fresh r) ∧
    (r.method ≠ MethodOptions →
      applyCors configMap next State.fresh r = next (State.start (corsHeader configMap)) r) ∧
    (corsHeader configMap).lookup (lit "Access-Control-Allow-Origin")
      = some (getConfigValue configMap (lit "cors_allowed_domains")) ∧
    (corsHeader configMap).lookup (lit "Access-Control-Allow-Methods")
      = some (lit "GET, POST, OPTIONS, PATCH") ∧
    (corsHeader configMap).lookup (lit "Access-Control-Allow-Headers")
      = some (lit "Content-Type") ∧
    (∀ m s, configMap = some m → m.lookup (lit "cors_allowed_domains") = some (.str s) →
      getConfigValue configMap (lit "cors_allowed_domains") = s) ∧
    ((configMap = none ∨ ∃ m, configMap = some m ∧ m.lookup (lit "cors_allowed_domains") = none) →
      getConfigValue configMap (lit "cors_allowed_domains") = []) := by
  refine ⟨?_, ?_, ?_, ?_, ?_, ?_, ?_⟩
  · intro h
    have hres : ∀ other : Handler, applyCors configMap other State.fresh r
        = ⟨⟨corsHeader configMap, some 204, []⟩, []⟩ := fun other =>
      applyCors_options configMap other r h
    rw [hres next]
    exact ⟨rfl, rfl, rfl, rfl, fun other => hres other⟩
  · intro h
    exact applyCors_other configMap next r h
  · rfl
  · have h1 : (lit "Access-Control-Allow-Methods" == lit "Access-Control-Allow-Origin") = false := by
      decide
    simp [corsHeader, List.lookup, h1]
  · have h1 : (lit "Access-Control-Allow-Headers" == lit "Access-Control-Allow-Origin") = false := by
      decide
    have h2 : (lit "Access-Control-Allow-Headers" == lit "Access-Control-Allow-Methods") = false := by
      decide
    simp [corsHeader, List.lookup, h1, h2]
  · intro m s hm hl
    simp [getConfigValue, hm, hl]
  · rintro (h | ⟨m, hm, hl⟩)
    · simp [getConfigValue, h]
    · simp [getConfigValue, hm, hl]

/-- C8 at an OPTIONS request and at the sample POST request in front of
`/base64nonquery`. -/
theorem C8_witness :
    (applyCors sampleConfig (Base64NoQuery echoWorld) State.fresh
        ⟨MethodOptions, sampleBody⟩).w.status = some 204 ∧
      applyCors sampleConfig (Base64NoQuery echoWorld) State.fresh samplePost
        = Base64NoQuery echoWorld (State.start (corsHeader sampleConfig)) samplePost ∧
      getConfigValue sampleConfig (lit "cors_allowed_domains") = lit "https://app.example" ∧
      getConfigValue none (lit "cors_allowed_domains") = [] :=
  ⟨((C8_cors_preflight_and_delegation sampleConfig (Base64NoQuery echoWorld)
      ⟨MethodOptions, sampleBody⟩).1 rfl).1,
   (C8_cors_preflight_and_delegation sampleConfig (Base64NoQuery echoWorld) samplePost).2.1
      (by decide),
   (C8_cors_preflight_and_delegation sampleConfig (Base64NoQuery echoWorld) samplePost).2.2.2.2.2.1
      _ (lit "https://app.example") rfl rfl,
   (C8_cors_preflight_and_delegation none (Base64NoQuery echoWorld) samplePost).2.2.2.2.2.2
      (Or.inl rfl)⟩

/-! ## C9: reading the configuration -/

/-- C9 as stated fails: with `api_port: 3101` parsed as a YAML integer the key
is present with value `3101`, yet `getConfigValue` returns the empty string. -/
theorem C9_counterexample :
    ([(lit "api_port", ConfigValue.int 3101)] : List (Str × ConfigValue)).lookup (lit "api_port")
        = some (.int 3101) ∧
      getConfigValue (some [(lit "api_port", .int 3101)]) (lit "api_port") = [] := by
  constructor <;> rfl

/-- C9, amended: `getConfigValue` is total; it returns the value stored under
the key when that value is a string, and the empty string when the
configuration was never loaded, when the key is absent, and when the value
stored under the key is not a string. -/
theorem C9_getConfigValue_string_or_empty (configMap : ConfigMap) (key : Str) :
    (configMap = none → getConfigValue configMap key = []) ∧
    (∀ m, configMap = some m → m.lookup key = none → getConfigValue configMap key = []) ∧
    (∀ m s, configMap = some m → m.lookup key = some (.str s) →
      getConfigValue configMap key = s) ∧
    (∀ m v, configMap = some m → m.lookup key = some v → (∀ s, v ≠ .str s) →
      getConfigValue configMap key = []) := by
  refine ⟨?_, ?_, ?_, ?_⟩
  · intro h
    simp [getConfigValue, h]
  · intro m hm hl
    simp [getConfigValue, hm, hl]
  · intro m s hm hl
    simp [getConfigValue, hm, hl]
  · intro m v hm hl hv
    cases v <;> simp_all [getConfigValue]

/-- C9, amended, at the sample configuration: a string value, an absent key,
an unloaded configuration and an integer value. -/
theorem C9_witness :
    getConfigValue sampleConfig (lit "api_port") = lit "3101" ∧
      getConfigValue sampleConfig (lit "db_host") = [] ∧
      getConfigValue none (lit "api_port") = [] ∧
      getConfigValue (some [(lit "api_port", .int 3101)]) (lit "api_port") = [] :=
  ⟨(C9_getConfigValue_string_or_empty sampleConfig (lit "api_port")).2.2.1 _ _ rfl rfl,
   (C9_getConfigValue_string_or_empty sampleConfig (lit "db_host")).2.1 _ rfl rfl,
   (C9_getConfigValue_string_or_empty none (lit "api_port")).1 rfl,
   (C9_getConfigValue_string_or_empty (some [(lit "api_port", .int 3101)])
      (lit "api_port")).2.2.2 _ (.int 3101) rfl rfl (fun _ h => ConfigValue.noConfusion h)⟩

/-! ## C10: start-up -/

/-- C10 as stated fails in its last condition: when `os.Stat` fails on
`fullchain.pem` with an error other than a not-exist error, the certificate
file was not found, yet `main` goes on and calls `ListenAndServeTLS`. -/
theorem C10_counterexample :
    unreadableCertWorld.stat (lit "fullchain.pem") = .otherError ∧
      unreadableCertWorld.stat (lit "fullchain.pem") ≠ .found ∧
      StartupEvent.listenAndServeTLS (lit ":3101") (lit "fullchain.pem") (lit "localhost.key")
        ∈ (main unreadableCertWorld).2 := by
  refine ⟨?_, ?_, ?_⟩ <;> decide

/-- C10, amended: when the configuration loads and `api_port` is missing from
it or resolves to the empty string, `main` ends with the fatal message
`api_port missing/empty in config.yml` and never calls `ListenAndServeTLS`;
in general `ListenAndServeTLS` is called only if the configuration loaded
without error, `getConfigValue("api_port")` is not empty, and `os.Stat`
reported neither `fullchain.pem` nor `localhost.key` as non-existent (an error
of `os.Stat` of another kind does not stop start-up); and under these
conditions it is called, on the configured port with these two files. -/
theorem C10_listen_requires_port_and_files (sw : StartupWorld) :
    (∀ configMap, loadConfig sw (lit "config.yml") none = (configMap, none) →
      ((∃ m, configMap = some m ∧ m.lookup (lit "api_port") = none) ∨
        getConfigValue configMap (lit "api_port") = []) →
      main sw = (configMap, [.fatal (lit "api_port missing/empty in config.yml")])) ∧
    (∀ addr certFile keyFile, StartupEvent.listenAndServeTLS addr certFile keyFile ∈ (main sw).2 →
      (loadConfig sw (lit "config.yml") none).2 = none ∧
      getConfigValue (loadConfig sw (lit "config.yml") none).1 (lit "api_port") ≠ [] ∧
      addr = lit ":" ++ getConfigValue (loadConfig sw (lit "config.yml") none).1 (lit "api_port") ∧
      certFile = lit "fullchain.pem" ∧ keyFile = lit "localhost.key" ∧
      sw.stat (lit "fullchain.pem") ≠ .notExist ∧ sw.stat (lit "localhost.key") ≠ .notExist) ∧
    (∀ configMap, loadConfig sw (lit "config.yml") none = (configMap, none) →
      getConfigValue configMap (lit "api_port") ≠ [] →
      sw.stat (lit "fullchain.pem") ≠ .notExist → sw.stat (lit "localhost.key") ≠ .notExist →
      main sw = (configMap,
        [.print (lit "API running on https://localhost" ++
            (lit ":" ++ getConfigValue configMap (lit "api_port"))),
         .listenAndServeTLS (lit ":" ++ getConfigValue configMap (lit "api_port"))
            (lit "fullchain.pem") (lit "localhost.key")])) := by
  refine ⟨?_, ?_, ?_⟩
  · intro configMap hl hp
    have hp2 : getConfigValue configMap (lit "api_port") = [] := by
      rcases hp with ⟨m, hm, hlk⟩ | hp
      · simp [getConfigValue, hm, hlk]
      · exact hp
    simp [main, hl, hp2]
  · intro addr certFile keyFile hmem
    unfold main at hmem
    rcases hcfg : loadConfig sw (lit "config.yml") none with ⟨configMap, err⟩
    rw [hcfg] at hmem
    cases err with
    | some e => simp at hmem
    | none =>
      simp only at hmem
      by_cases hp : getConfigValue configMap (lit "api_port") = []
      · simp [hp] at hmem
      · by_cases hc : sw.stat (lit "fullchain.pem") = .notExist
        · simp [hp, hc] at hmem
        · by_cases hk : sw.stat (lit "localhost.key") = .notExist
          · simp [hp, hc, hk] at hmem
          · simp [hp, hc, hk] at hmem
            exact ⟨rfl, hp, hmem.1, hmem.2.1, hmem.2.2, hc, hk⟩
  · intro configMap hl hp hc hk
    simp [main, hl, hp, hc, hk]

/-- C10 at a configuration without `api_port` (fatal, nothing bound) and at
the sample configuration (the listener is started on `:3101`). -/
theorem C10_witness :
    main (startupWith (some [(lit "cors_allowed_domains", .str (lit "*"))]))
        = (some [(lit "cors_allowed_domains", .str (lit "*"))],
            [.fatal (lit "api_port missing/empty in config.yml")]) ∧
      (StartupEvent.listenAndServeTLS (lit ":3101") (lit "fullchain.pem") (lit "localhost.key")
          ∈ (main (startupWith sampleConfig)).2 ∧
        getConfigValue (loadConfig (startupWith sampleConfig) (lit "config.yml") none).1
          (lit "api_port") ≠ []) :=
  ⟨(C10_listen_requires_port_and_files
      (startupWith (some [(lit "cors_allowed_domains", .str (lit "*"))]))).1 _ rfl
      (Or.inl ⟨_, rfl, rfl⟩),
   by decide,
   ((C10_listen_requires_port_and_files (startupWith sampleConfig)).2.1 (lit ":3101")
      (lit "fullchain.pem") (lit "localhost.key") (by decide)).2.1⟩

end PgApi
